import Mathlib

/-!
# scantailor-advanced: spline fitting and dewarping view

A shallow embedding of the parts of the repository that the spline-fitting
and dewarping-grid contracts are about:

* `spfit::tests` (`src/math/tests/TestSqDistApproximant.cpp`): the control
  values the unit tests compare `SqDistApproximant::evaluate` against;
* `output::DewarpingView` (`src/core/filters/output/DewarpingView.cpp`):
  `initNewSpline`, `fitSpline` and the grid part of `onPaint`;
* `deskew::ImageView` (`src/core/filters/deskew/ImageView.cpp`): the methods
  that change the post-rotation angle, and the rotation handles;
* `UnitsProvider` (`src/core/UnitsProvider.cpp`): the units and their
  listeners.

Floating-point numbers are modelled by an arbitrary linearly ordered field
`K` (so the statements hold over the reals, and can be evaluated over the
rationals).  Classes whose implementation is not part of the sources at hand
are either parameters of the model or modelled from the specification; every
such definition says so in its doc comment.
-/

namespace Scantailor

/-! ## Geometric primitives -/

/-- A 2D vector of coordinates (`Vec2d`, also standing for `QPointF`). -/
structure Vec2d (K : Type) where
  x : K
  y : K
deriving DecidableEq, Repr

namespace Vec2d

variable {K : Type}

/-- Component-wise sum (`operator+`). -/
def add [Add K] (a b : Vec2d K) : Vec2d K := ⟨a.x + b.x, a.y + b.y⟩

/-- Component-wise difference (`operator-`). -/
def sub [Sub K] (a b : Vec2d K) : Vec2d K := ⟨a.x - b.x, a.y - b.y⟩

/-- Multiplication by a scalar (`operator*`). -/
def scale [Mul K] (a : Vec2d K) (t : K) : Vec2d K := ⟨a.x * t, a.y * t⟩

/-- Division by a scalar (`operator/=`). -/
def divScalar [Div K] (a : Vec2d K) (t : K) : Vec2d K := ⟨a.x / t, a.y / t⟩

/-- Dot product (`Vec2d::dot`). -/
def dot [Add K] [Mul K] (a b : Vec2d K) : K := a.x * b.x + a.y * b.y

/-- Squared Euclidean norm (`Vec2d::squaredNorm`). -/
def squaredNorm [Add K] [Mul K] (a : Vec2d K) : K := a.x * a.x + a.y * a.y

end Vec2d

/-- A line through two points (`QLineF`). -/
structure QLineF (K : Type) where
  p1 : Vec2d K
  p2 : Vec2d K
deriving DecidableEq, Repr

namespace QLineF

variable {K : Type}

/-- The point at parameter `t` of the line, as `QLineF::pointAt` computes it:
`p1 + (p2 - p1) * t`, coordinate by coordinate. -/
def pointAt [Add K] [Sub K] [Mul K] (l : QLineF K) (t : K) : Vec2d K :=
  ⟨l.p1.x + (l.p2.x - l.p1.x) * t, l.p1.y + (l.p2.y - l.p1.y) * t⟩

end QLineF

/-! ## Projection onto a line -/

/-- Modelled from the spec: `ToLineProjector` (ToLineProjector.h/.cpp are not
among the sources).  The spec's Line "supports projection of an arbitrary
point onto it (scalar parameter and squared distance)": the projector keeps
the line's first point and its direction vector. -/
structure ToLineProjector (K : Type) where
  origin : Vec2d K
  vec : Vec2d K
deriving DecidableEq, Repr

namespace ToLineProjector

variable {K : Type} [Field K]

/-- Modelled from the spec: the projector of the infinite line through the two
points of `line`. -/
def ofLine (line : QLineF K) : ToLineProjector K :=
  ⟨line.p1, line.p2.sub line.p1⟩

/-- Modelled from the spec: the scalar parameter of the orthogonal projection
of `pt`, the `s` for which `origin + s * vec` is the point of the line
closest to `pt`. -/
def projectionScalar (proj : ToLineProjector K) (pt : Vec2d K) : K :=
  proj.vec.dot (pt.sub proj.origin) / proj.vec.dot proj.vec

/-- Modelled from the spec: the orthogonal projection of `pt` onto the line. -/
def projectionPoint (proj : ToLineProjector K) (pt : Vec2d K) : Vec2d K :=
  proj.origin.add (proj.vec.scale (proj.projectionScalar pt))

/-- Modelled from the spec: the squared distance from `pt` to its orthogonal
projection, that is the squared perpendicular distance to the line. -/
def projectionSqDist (proj : ToLineProjector K) (pt : Vec2d K) : K :=
  ((proj.projectionPoint pt).sub pt).squaredNorm

end ToLineProjector

/-! ## Local quadratic distance approximant -/

/-- Modelled from the spec: `spfit::SqDistApproximant` (SqDistApproximant.h/.cpp
are not among the sources; only its unit test is).  The spec's data model: "a
local quadratic form `f(p) = m·(u·(p−origin))² + n·(v·(p−origin))²` ...
Attributes: origin point, two orthogonal unit directions `u,v`, two
non-negative weights `m,n`". -/
structure SqDistApproximant (K : Type) where
  origin : Vec2d K
  u : Vec2d K
  v : Vec2d K
  m : K
  n : K
deriving DecidableEq, Repr

namespace SqDistApproximant

variable {K : Type} [Field K]

/-- Modelled from the spec: `evaluate(point)` "returns the approximated scalar
cost", the quadratic form `m·(u·(p−origin))² + n·(v·(p−origin))²`. -/
def evaluate (a : SqDistApproximant K) (p : Vec2d K) : K :=
  a.m * (a.u.dot (p.sub a.origin)) ^ 2 + a.n * (a.v.dot (p.sub a.origin)) ^ 2

/-- Modelled from the spec: `pointDistance(target)`, the specialization
"`m=n=1`, origin = the point".  The spec leaves the orthonormal pair open; the
coordinate axes are taken (`evaluate_unit_weights` shows the choice does not
matter). -/
def pointDistance (target : Vec2d K) : SqDistApproximant K :=
  ⟨target, ⟨1, 0⟩, ⟨0, 1⟩, 1, 1⟩

/-- Modelled from the spec: `lineDistance(line)`, the specialization "`m=0`
along the line direction, `n=1` along its normal", with a point of the line
as origin.  The direction is normalised by dividing by its length; `sqrt` is
the square root used for that (the field `K` need not have one for every
element). -/
def lineDistance (sqrt : K → K) (line : QLineF K) : SqDistApproximant K :=
  let d := line.p2.sub line.p1
  let u := d.divScalar (sqrt d.squaredNorm)
  ⟨line.p1, u, ⟨-u.y, u.x⟩, 0, 1⟩

end SqDistApproximant

/-! ## The unit tests' control values (`TestSqDistApproximant.cpp`) -/

namespace tests

variable {K : Type} [Field K]

/-- The control value of `test_point_distance`:
`(pt - origin).squaredNorm()`. -/
def pointDistanceControl (origin pt : Vec2d K) : K :=
  (pt.sub origin).squaredNorm

/-- The control value of `test_line_distance`:
`ToLineProjector(line).projectionSqDist(pt)`. -/
def lineDistanceControl (line : QLineF K) (pt : Vec2d K) : K :=
  (ToLineProjector.ofLine line).projectionSqDist pt

/-- The control value of `test_general_case`:
`m * uProj * uProj + n * vProj * vProj` with `uProj = u.dot(pt - origin)` and
`vProj = v.dot(pt - origin)`. -/
def generalCaseControl (origin u v : Vec2d K) (m n : K) (pt : Vec2d K) : K :=
  let uProj := u.dot (pt.sub origin)
  let vProj := v.dot (pt.sub origin)
  m * uProj * uProj + n * vProj * vProj

end tests

/-! ## X-spline and its creation (`DewarpingView::initNewSpline`) -/

/-- The dewarping modes (`DewarpingMode`).  `initNewSpline` only tests for
`AUTO`; `dragFinished` names `MANUAL` and `MARGINAL` as well. -/
inductive DewarpingMode where
  | OFF
  | AUTO
  | MANUAL
  | MARGINAL
deriving DecidableEq, Repr

/-- The part of `DewarpingOptions` the view reads: `dewarpingMode()`. -/
structure DewarpingOptions where
  dewarpingMode : DewarpingMode
deriving DecidableEq, Repr

/-- A control point of an X-spline: a position tagged with its tension. -/
structure ControlPoint (K : Type) where
  pos : Vec2d K
  tension : K
deriving DecidableEq, Repr

/-- Modelled from the spec: `XSpline` (XSpline.h/.cpp are not among the
sources), "an ordered sequence of control points, each tagged with a
blending/tension parameter". -/
structure XSpline (K : Type) where
  controlPoints : List (ControlPoint K)
deriving DecidableEq, Repr

namespace XSpline

variable {K : Type}

/-- Modelled from the spec: `numControlPoints()`. -/
def numControlPoints (s : XSpline K) : Nat := s.controlPoints.length

/-- Modelled from the spec: `appendControlPoint(position, blendParameter)` adds
a control point at the end of the sequence. -/
def appendControlPoint (s : XSpline K) (pos : Vec2d K) (tension : K) : XSpline K :=
  ⟨s.controlPoints ++ [⟨pos, tension⟩]⟩

/-- The positions of the control points, in order
(`controlPointPosition(i)` for `i = 0 .. numControlPoints() - 1`). -/
def positions (s : XSpline K) : List (Vec2d K) := s.controlPoints.map ControlPoint.pos

end XSpline

section InitNewSpline

variable {K : Type} [LinearOrderedField K]

/-- The method `DewarpingView::initNewSpline`: appends to `spline` the two ends of the
line from `p1` to `p2` with tension 0 and, in `AUTO` mode, the three points at
1/4, 2/4 and 3/4 of the line with tension 1 between them. -/
def initNewSpline (spline : XSpline K) (p1 p2 : Vec2d K)
    (dewarpingOptions : DewarpingOptions) : XSpline K :=
  let line : QLineF K := ⟨p1, p2⟩
  let spline := spline.appendControlPoint line.p1 0
  let spline :=
    if dewarpingOptions.dewarpingMode = DewarpingMode.AUTO then
      let spline := spline.appendControlPoint (line.pointAt (1 / 4)) 1
      let spline := spline.appendControlPoint (line.pointAt (2 / 4)) 1
      spline.appendControlPoint (line.pointAt (3 / 4)) 1
    else spline
  spline.appendControlPoint line.p2 0

/-- The point `q` lies on the segment from `p1` to `p2`. -/
def OnSegment (p1 p2 q : Vec2d K) : Prop :=
  ∃ t : K, 0 ≤ t ∧ t ≤ 1 ∧ q = (QLineF.mk p1 p2).pointAt t

end InitNewSpline

/-! ## Spline fitting (`DewarpingView::fitSpline`) -/

/-- The type `FittableSpline::SamplingParams`, with the one field `fitSpline` sets. -/
structure SamplingParams (K : Type) where
  maxDistBetweenSamples : K
deriving DecidableEq, Repr

/-- The type `spfit::PolylineModelShape`: the target shape, built from the polyline. -/
structure PolylineModelShape (K : Type) where
  polyline : List (Vec2d K)
deriving DecidableEq, Repr

/-- Modelled from the spec: `spfit::ConstraintSet` (not among the sources): each
constraint "binds a specific curve parameter value (e.g., `0.0` or `1.0`) to a
fixed target point". -/
structure ConstraintSet (K : Type) where
  constraints : List (K × Vec2d K)
deriving DecidableEq, Repr

namespace ConstraintSet

variable {K : Type}

/-- A constraint set without constraints (`ConstraintSet constraints(&spline)`). -/
def new : ConstraintSet K := ⟨[]⟩

/-- Modelled from the spec: `constrainSplinePoint(t, pos)` adds the constraint
that the spline's point at parameter `t` is `pos`. -/
def constrainSplinePoint (cs : ConstraintSet K) (t : K) (pos : Vec2d K) : ConstraintSet K :=
  ⟨cs.constraints ++ [(t, pos)]⟩

end ConstraintSet

/-- Modelled from the spec: `spfit::LinearForceBalancer` (not among the
sources), the "Force Balancer State": the ratio it starts from, the target
ratio, the number of iterations of the schedule, and how many times
`nextIteration()` has advanced it. -/
structure LinearForceBalancer (K : Type) where
  startRatio : K
  targetRatio : K
  iterationsToTarget : Int
  iteration : Nat
deriving DecidableEq, Repr

namespace LinearForceBalancer

variable {K : Type}

/-- The constructor `LinearForceBalancer balancer(ratio)`: no schedule yet. -/
def new (internal_external_ratio : K) : LinearForceBalancer K :=
  ⟨internal_external_ratio, internal_external_ratio, 0, 0⟩

/-- The method `setTargetRatio(ratio)`. -/
def setTargetRatio (b : LinearForceBalancer K) (ratio : K) : LinearForceBalancer K :=
  { b with targetRatio := ratio }

/-- The method `setIterationsToTarget(iterations)`. -/
def setIterationsToTarget (b : LinearForceBalancer K) (iterations : Int) :
    LinearForceBalancer K :=
  { b with iterationsToTarget := iterations }

/-- The method `nextIteration()`: advances the schedule by one iteration. -/
def nextIteration (b : LinearForceBalancer K) : LinearForceBalancer K :=
  { b with iteration := b.iteration + 1 }

end LinearForceBalancer

/-- Modelled from the spec: `spfit::SplineFitter` (not among the sources).  It
holds the constraints and sampling parameters it was given, the state `F` of
its optimizer (the accumulated forces), and, by the spec's design note,
"exactly one prior curve snapshot (not a full history)": a single-slot
rollback. -/
structure SplineFitter (K F : Type) where
  constraints : ConstraintSet K
  samplingParams : SamplingParams K
  optimizer : F
  undoSlot : Option (XSpline K)

/-- The numerical engine behind `fitSpline`, none of which is among the sources:
the operations of `spfit::SplineFitter`'s optimizer on its state `F`, the
weight formula of `LinearForceBalancer`, the loop detector of
`dewarping::Curve`, and the evaluation of an `XSpline`.  The model of
`fitSpline` takes them as parameters. -/
structure SpfitEngine (K F : Type) where
  /-- The optimizer state of a new `SplineFitter fitter(&spline)`. -/
  newOptimizer : XSpline K → F
  /-- The sampling parameters of a new fitter. -/
  defaultSamplingParams : SamplingParams K
  /-- The optimizer state after `fitter.addAttractionForces(model_shape)`. -/
  addAttractionForces : SplineFitter K F → XSpline K → PolylineModelShape K → F
  /-- The optimizer state after
  `fitter.addInternalForce(spline.controlPointsAttractionForce())`. -/
  addInternalForce : SplineFitter K F → XSpline K → F
  /-- The value of `fitter.internalForce()`. -/
  internalForce : F → K
  /-- The value of `fitter.externalForce()`. -/
  externalForce : F → K
  /-- The closed-form step of `fitter.optimize(internal_force_weight)`: the new
  optimizer state, the displaced spline and the improvement percentage. -/
  solve : SplineFitter K F → XSpline K → K → F × XSpline K × K
  /-- The value of `balancer.calcInternalForceWeight(internal, external)`. -/
  calcInternalForceWeight : LinearForceBalancer K → K → K → K
  /-- The predicate `dewarping::Curve::splineHasLoops(spline)`. -/
  splineHasLoops : XSpline K → Bool
  /-- The point `spline.pointAt(t)`. -/
  pointAt : XSpline K → K → Vec2d K

namespace SplineFitter

variable {K F : Type}

/-- The constructor `SplineFitter fitter(&spline)`: no constraints, nothing to undo. -/
def new (E : SpfitEngine K F) (spline : XSpline K) : SplineFitter K F :=
  ⟨ConstraintSet.new, E.defaultSamplingParams, E.newOptimizer spline, none⟩

/-- The method `setConstraints(constraints)`. -/
def setConstraints (fitter : SplineFitter K F) (constraints : ConstraintSet K) :
    SplineFitter K F :=
  { fitter with constraints := constraints }

/-- The method `setSamplingParams(params)`. -/
def setSamplingParams (fitter : SplineFitter K F) (params : SamplingParams K) :
    SplineFitter K F :=
  { fitter with samplingParams := params }

/-- The method `addAttractionForces(model_shape)`. -/
def addAttractionForces (E : SpfitEngine K F) (fitter : SplineFitter K F)
    (spline : XSpline K) (model_shape : PolylineModelShape K) : SplineFitter K F :=
  { fitter with optimizer := E.addAttractionForces fitter spline model_shape }

/-- The method `addInternalForce(spline.controlPointsAttractionForce())`. -/
def addInternalForce (E : SpfitEngine K F) (fitter : SplineFitter K F)
    (spline : XSpline K) : SplineFitter K F :=
  { fitter with optimizer := E.addInternalForce fitter spline }

/-- Modelled from the spec: `optimize(internal_force_weight)` keeps the spline it
starts from in the single rollback slot, applies the displacement the solver
found, and returns the fitter, the new spline and the improvement percentage
of the `OptimizationResult`. -/
def optimize (E : SpfitEngine K F) (fitter : SplineFitter K F) (spline : XSpline K)
    (internal_force_weight : K) : SplineFitter K F × XSpline K × K :=
  let r := E.solve fitter spline internal_force_weight
  ({ fitter with optimizer := r.1, undoSlot := some spline }, r.2.1, r.2.2)

/-- Modelled from the spec: `undoLastStep()` puts the spline of the rollback slot
back and empties the slot; with an empty slot it changes nothing. -/
def undoLastStep (fitter : SplineFitter K F) (spline : XSpline K) :
    SplineFitter K F × XSpline K :=
  match fitter.undoSlot with
  | some previous => ({ fitter with undoSlot := none }, previous)
  | none => (fitter, spline)

end SplineFitter

/-- One optimisation step of `fitSpline`, as recorded in the log of the run:
how often the balancer had been advanced when `optimize` was called, the
weight passed to `optimize`, the spline before and right after the call, the
improvement percentage, and what `splineHasLoops` said of the new spline. -/
structure FitStep (K : Type) where
  balancerIteration : Nat
  weight : K
  before : XSpline K
  after : XSpline K
  improvement : K
  looped : Bool
deriving DecidableEq, Repr

/-- The state of a run of `fitSpline`: the spline being fitted, the fitter,
the balancer, and the log of the optimisation steps made so far. -/
structure FitState (K F : Type) where
  spline : XSpline K
  fitter : SplineFitter K F
  balancer : LinearForceBalancer K
  steps : List (FitStep K)

section FitSpline

variable {K F : Type} [LinearOrderedField K]

/-- The loop of `DewarpingView::fitSpline`,
`for (; iterations_remaining > 0; --iterations_remaining, balancer.nextIteration())`:
one pass adds the forces, asks the balancer for the weight, optimizes, undoes
the step and leaves when the new spline has loops, and leaves when the
improvement is below 0.5 percent. -/
def fitLoop (E : SpfitEngine K F) (model_shape : PolylineModelShape K) :
    (iterations_remaining : Nat) → FitState K F → FitState K F
  | 0, st => st
  | iterations_remaining + 1, st =>
    let fitter := st.fitter.addAttractionForces E st.spline model_shape
    let fitter := fitter.addInternalForce E st.spline
    let internal_force_weight :=
      E.calcInternalForceWeight st.balancer (E.internalForce fitter.optimizer)
        (E.externalForce fitter.optimizer)
    let res := fitter.optimize E st.spline internal_force_weight
    let step : FitStep K :=
      ⟨st.balancer.iteration, internal_force_weight, st.spline, res.2.1, res.2.2,
        E.splineHasLoops res.2.1⟩
    if E.splineHasLoops res.2.1 then
      let undone := res.1.undoLastStep res.2.1
      ⟨undone.2, undone.1, st.balancer, st.steps ++ [step]⟩
    else if res.2.2 < 1 / 2 then
      ⟨res.2.1, res.1, st.balancer, st.steps ++ [step]⟩
    else
      fitLoop E model_shape iterations_remaining
        ⟨res.2.1, res.1, st.balancer.nextIteration, st.steps ++ [step]⟩

/-- The method `DewarpingView::fitSpline(spline, polyline)`: constrains the ends of the
spline to the ends of the polyline, samples every 10 units, schedules the
balancer from 0.8 to 0.1 over `iterations_remaining - 1` iterations and runs
the loop with a budget of 20 iterations.  `polyline.front()` and
`polyline.back()` need a polyline that is not empty. -/
def fitSpline (E : SpfitEngine K F) (spline : XSpline K) (polyline : List (Vec2d K))
    (h : polyline ≠ []) : FitState K F :=
  let fitter := SplineFitter.new E spline
  let model_shape : PolylineModelShape K := ⟨polyline⟩
  let constraints : ConstraintSet K := ConstraintSet.new
  let constraints := constraints.constrainSplinePoint 0 (polyline.head h)
  let constraints := constraints.constrainSplinePoint 1 (polyline.getLast h)
  let fitter := fitter.setConstraints constraints
  let sampling_params : SamplingParams K := ⟨10⟩
  let fitter := fitter.setSamplingParams sampling_params
  let iterations_remaining : Nat := 20
  let balancer := LinearForceBalancer.new (8 / 10 : K)
  let balancer := balancer.setTargetRatio (1 / 10)
  let balancer := balancer.setIterationsToTarget ((iterations_remaining : Int) - 1)
  fitLoop E model_shape iterations_remaining ⟨spline, fitter, balancer, []⟩

end FitSpline

section FitRun

variable {K F : Type} [LinearOrderedField K]

/-- The result of the `optimize` call of a pass of the loop that starts in
state `st`: the fitter, the new spline and the improvement percentage. -/
def passResult (E : SpfitEngine K F) (ms : PolylineModelShape K) (st : FitState K F) :
    SplineFitter K F × XSpline K × K :=
  let fitter := (st.fitter.addAttractionForces E st.spline ms).addInternalForce E st.spline
  fitter.optimize E st.spline
    (E.calcInternalForceWeight st.balancer (E.internalForce fitter.optimizer)
      (E.externalForce fitter.optimizer))

/-- The step a pass of the loop that starts in state `st` adds to the log. -/
def passStep (E : SpfitEngine K F) (ms : PolylineModelShape K) (st : FitState K F) :
    FitStep K :=
  let fitter := (st.fitter.addAttractionForces E st.spline ms).addInternalForce E st.spline
  ⟨st.balancer.iteration,
    E.calcInternalForceWeight st.balancer (E.internalForce fitter.optimizer)
      (E.externalForce fitter.optimizer),
    st.spline, (passResult E ms st).2.1, (passResult E ms st).2.2,
    E.splineHasLoops (passResult E ms st).2.1⟩

/-- The steps of a log follow each other: the first one starts from the spline
`s` with the balancer advanced `k` times, each further one starts from the
spline its predecessor left, with the balancer advanced once more; `looped`
is what `splineHasLoops` says of the new spline; and a step that has a
successor neither looped nor improved by less than 0.5 percent. -/
def StepChain (E : SpfitEngine K F) : XSpline K → Nat → List (FitStep K) → Prop
  | _, _, [] => True
  | s, k, step :: rest =>
    step.before = s ∧ step.balancerIteration = k ∧
    step.looped = E.splineHasLoops step.after ∧
    (rest ≠ [] → step.looped = false ∧ 1 / 2 ≤ step.improvement) ∧
    StepChain E step.after (k + 1) rest

/-- The spline a log of steps leaves when started from `s`: a looped step is
rolled back to the spline it started from, any other step is kept. -/
def finalSpline : XSpline K → List (FitStep K) → XSpline K
  | s, [] => s
  | _, step :: rest => if step.looped then step.before else finalSpline step.after rest

/-- One call of the solver as the engine sees it: the fitter, the spline and
the weight it is given, and the spline and the improvement percentage it
returns. -/
structure SolveCall (K F : Type) where
  fitter : SplineFitter K F
  spline : XSpline K
  weight : K
  after : XSpline K
  improvement : K

/-- A fitter whose optimizer state carries a record of calls, without the
record. -/
def SplineFitter.plain (fitter : SplineFitter K (F × List (SolveCall K F))) :
    SplineFitter K F :=
  ⟨fitter.constraints, fitter.samplingParams, fitter.optimizer.1, fitter.undoSlot⟩

/-- A state of the fitting whose fitter carries a record of calls, without the
record. -/
def FitState.plain (st : FitState K (F × List (SolveCall K F))) : FitState K F :=
  ⟨st.spline, st.fitter.plain, st.balancer, st.steps⟩

/-- The engine `E` made to record the calls of its solver: its optimizer state
is that of `E` together with the list of the calls of `solve` made so far;
every function answers as that of `E` does, and `solve` appends to the list
what it was given and what it returned.  The code of `fitSpline` cannot see or
change the list, so what the list holds after a run are the calls of
`SplineFitter::optimize` the run made, in order. -/
def recordingEngine (E : SpfitEngine K F) : SpfitEngine K (F × List (SolveCall K F)) where
  newOptimizer spline := (E.newOptimizer spline, [])
  defaultSamplingParams := E.defaultSamplingParams
  addAttractionForces fitter spline model_shape :=
    (E.addAttractionForces fitter.plain spline model_shape, fitter.optimizer.2)
  addInternalForce fitter spline := (E.addInternalForce fitter.plain spline, fitter.optimizer.2)
  internalForce f := E.internalForce f.1
  externalForce f := E.externalForce f.1
  solve fitter spline weight :=
    (((E.solve fitter.plain spline weight).1,
        fitter.optimizer.2 ++
          [⟨fitter.plain, spline, weight, (E.solve fitter.plain spline weight).2.1,
            (E.solve fitter.plain spline weight).2.2⟩]),
      (E.solve fitter.plain spline weight).2.1, (E.solve fitter.plain spline weight).2.2)
  calcInternalForceWeight := E.calcInternalForceWeight
  splineHasLoops := E.splineHasLoops
  pointAt := E.pointAt

/-- The calls of the solver that `fitSpline(spline, polyline)` makes on the
engine `E`, in order, as the recording engine has them at the end of the run. -/
def solveCalls (E : SpfitEngine K F) (spline : XSpline K) (polyline : List (Vec2d K))
    (h : polyline ≠ []) : List (SolveCall K F) :=
  (fitSpline (recordingEngine E) spline polyline h).fitter.optimizer.2

/-- The fitter as `fitSpline(spline, polyline)` has it at its first call of
`optimize`: with the two constraints and the sampling parameters set, and the
attraction forces and the internal force of the given spline added. -/
def firstFitter (E : SpfitEngine K F) (spline : XSpline K) (polyline : List (Vec2d K))
    (h : polyline ≠ []) : SplineFitter K F :=
  let fitter := SplineFitter.new E spline
  let constraints : ConstraintSet K := ConstraintSet.new
  let constraints := constraints.constrainSplinePoint 0 (polyline.head h)
  let constraints := constraints.constrainSplinePoint 1 (polyline.getLast h)
  let fitter := fitter.setConstraints constraints
  let fitter := fitter.setSamplingParams ⟨10⟩
  let fitter := fitter.addAttractionForces E spline ⟨polyline⟩
  fitter.addInternalForce E spline

/-- The call of the solver that a pass of the loop makes from the state `st`. -/
def passCall (E : SpfitEngine K F) (ms : PolylineModelShape K) (st : FitState K F) :
    SolveCall K F :=
  let fitter := (st.fitter.addAttractionForces E st.spline ms).addInternalForce E st.spline
  let weight := E.calcInternalForceWeight st.balancer (E.internalForce fitter.optimizer)
    (E.externalForce fitter.optimizer)
  ⟨fitter, st.spline, weight, (E.solve fitter st.spline weight).2.1,
    (E.solve fitter st.spline weight).2.2⟩

/-- The call `c` of the solver is the one logged as the step `s`, made by a
fitter with the constraints `cs` and the sampling parameters `sp`, with the
weight that the balancer `b`, advanced as often as the step says, gives for
the forces of that fitter. -/
def CallOf (E : SpfitEngine K F) (cs : ConstraintSet K) (sp : SamplingParams K)
    (b : LinearForceBalancer K) (c : SolveCall K F) (s : FitStep K) : Prop :=
  c.spline = s.before ∧ c.after = s.after ∧ c.improvement = s.improvement ∧
    c.weight = s.weight ∧ c.fitter.constraints = cs ∧ c.fitter.samplingParams = sp ∧
    c.weight = E.calcInternalForceWeight { b with iteration := s.balancerIteration }
      (E.internalForce c.fitter.optimizer) (E.externalForce c.fitter.optimizer) ∧
    (E.solve c.fitter c.spline c.weight).2.1 = c.after ∧
    (E.solve c.fitter c.spline c.weight).2.2 = c.improvement

end FitRun

/-! ## A sample engine -/

/-- The target a constraint set gives for the parameter `t`, the origin when it
gives none. -/
def sampleTarget (cs : ConstraintSet ℚ) (t : ℚ) : Vec2d ℚ :=
  ((cs.constraints.find? (fun c => c.1 == t)).map Prod.snd).getD ⟨0, 0⟩

/-- A small engine over the rationals, on which the model can be evaluated.  Its
optimizer state counts the steps made; a step returns the straight spline
between the constrained ends and an improvement of 2, 1, 0, ... percent; a
spline is said to loop when its first control point lies right of its last;
and a spline is evaluated on the line through its first and last control
point. -/
def sampleEngine : SpfitEngine ℚ Nat where
  newOptimizer _ := 0
  defaultSamplingParams := ⟨0⟩
  addAttractionForces fitter _ _ := fitter.optimizer
  addInternalForce fitter _ := fitter.optimizer
  internalForce _ := 1
  externalForce _ := 1
  solve fitter _ _ :=
    (fitter.optimizer + 1,
      ⟨[⟨sampleTarget fitter.constraints 0, 0⟩, ⟨sampleTarget fitter.constraints 1, 0⟩]⟩,
      2 - (fitter.optimizer : ℚ))
  calcInternalForceWeight balancer internal external := balancer.startRatio * external / internal
  splineHasLoops spline :=
    match spline.controlPoints.head?, spline.controlPoints.getLast? with
    | some a, some b => decide (b.pos.x < a.pos.x)
    | _, _ => false
  pointAt spline t :=
    match spline.controlPoints.head?, spline.controlPoints.getLast? with
    | some a, some b => (QLineF.mk a.pos b.pos).pointAt t
    | _, _ => ⟨0, 0⟩

/-- A polyline of three points, from left to right. -/
def samplePolyline : List (Vec2d ℚ) := [⟨0, 0⟩, ⟨5, 1⟩, ⟨10, 0⟩]

/-- A generatrix as `CylindricalSurfaceDewarper::mapGeneratrix` returns it: the
image-space line and the mapping from the plane's `y` to a position on it. -/
structure Generatrix (K : Type) where
  imgLine : QLineF K
  pln2img : K → K

/-- The drawing calls `onPaint` makes on the painter. -/
inductive PaintCmd (K : Type) where
  | drawPolygon (polygon : List (Vec2d K))
  | drawLine (p1 p2 : Vec2d K)
  | drawPolyline (points : List (Vec2d K))
  | drawPoint (p : Vec2d K)
deriving DecidableEq, Repr

/-- The effects of one `onPaint`: the drawing calls in order, and the log of
the `mapGeneratrix(x, state)` calls, each with the `x` and the cursor state
it was given. -/
structure PaintLog (K St : Type) where
  cmds : List (PaintCmd K)
  queries : List (K × St)

/-- The cylindrical surface dewarper and the validity test of the distortion
model, neither of which is among the sources; `onPaint` takes them as
parameters.  `D` is the type of a constructed dewarper, `St` of its cursor
`State`; a `none` stands for a `std::runtime_error` being thrown. -/
structure DewarperEngine (K D St : Type) where
  /-- The value of `m_distortionModel.isValid()` for the two curve polylines. -/
  isValid : List (Vec2d K) → List (Vec2d K) → Bool
  /-- The constructor `CylindricalSurfaceDewarper(top, bottom, depth)`. -/
  construct : List (Vec2d K) → List (Vec2d K) → K → Option D
  /-- A new cursor, `CylindricalSurfaceDewarper::State state;`. -/
  newState : St
  /-- The call `dewarper.mapGeneratrix(x, state)`, which advances the cursor. -/
  mapGeneratrix : D → K → St → Option (Generatrix K × St)

/-- What `onPaint` reads of the view: the polylines of the two curves of the
distortion model (never empty), the depth perception, the margin areas
`virtMarginArea(0)` and `virtMarginArea(1)`, and what `paintXSpline` draws for
the top and for the bottom spline. -/
structure DewarpingView (K : Type) where
  topPolyline : List (Vec2d K)
  bottomPolyline : List (Vec2d K)
  top_ne : topPolyline ≠ []
  bottom_ne : bottomPolyline ≠ []
  depthPerception : K
  virtMarginArea : Nat → List (Vec2d K)
  topSplineMarks : List (PaintCmd K)
  bottomSplineMarks : List (PaintCmd K)

section OnPaint

variable {K D St : Type} [LinearOrderedField K]

/-- The number of vertical grid lines, `num_vert_grid_lines`. -/
def num_vert_grid_lines : Nat := 30

/-- The number of horizontal grid lines, `num_hor_grid_lines`. -/
def num_hor_grid_lines : Nat := 30

/-- The inner loop of the grid, `for (int i = 0; i < num_hor_grid_lines; ++i)`:
`curves[i]` receives the generatrix' point at `y = i / (num_hor_grid_lines - 1.0)`. -/
def pushGeneratrix (gtx : Generatrix K) (curves : List (List (Vec2d K))) :
    List (List (Vec2d K)) :=
  List.zipWith
    (fun (i : Nat) curve =>
      curve ++ [gtx.imgLine.pointAt (gtx.pln2img ((i : K) / ((num_hor_grid_lines : K) - 1)))])
    (List.range num_hor_grid_lines) curves

/-- The outer loop of the grid, `for (int j = 0; j < num_vert_grid_lines; ++j)`,
with `remaining = num_vert_grid_lines - j` passes to go.  Each pass maps the
generatrix at `x = j / (num_vert_grid_lines - 1.0)`, draws the grid line
between its points at `y = 0` and `y = 1` and extends the curves.  The result
is the log and, unless `mapGeneratrix` threw, the curves. -/
def gridLoop (E : DewarperEngine K D St) (dewarper : D) :
    (remaining : Nat) → (j : Nat) → St → List (List (Vec2d K)) → PaintLog K St →
      PaintLog K St × Option (List (List (Vec2d K)))
  | 0, _, _, curves, log => (log, some curves)
  | remaining + 1, j, state, curves, log =>
    let x : K := (j : K) / ((num_vert_grid_lines : K) - 1)
    let log : PaintLog K St := ⟨log.cmds, log.queries ++ [(x, state)]⟩
    match E.mapGeneratrix dewarper x state with
    | none => (log, none)
    | some (gtx, state) =>
      let gtx_p0 := gtx.imgLine.pointAt (gtx.pln2img 0)
      let gtx_p1 := gtx.imgLine.pointAt (gtx.pln2img 1)
      let log : PaintLog K St := ⟨log.cmds ++ [PaintCmd.drawLine gtx_p0 gtx_p1], log.queries⟩
      gridLoop E dewarper remaining (j + 1) state (pushGeneratrix gtx curves) log

/-- The `try` block of `onPaint`: constructs the dewarper, runs the grid loop
with a new cursor and draws the curves.  The flag of the result is the value
`valid_model` has after the block: `false` when something threw. -/
def paintGrid (E : DewarperEngine K D St) (view : DewarpingView K) (log : PaintLog K St) :
    PaintLog K St × Bool :=
  let curves : List (List (Vec2d K)) := List.replicate num_hor_grid_lines []
  match E.construct view.topPolyline view.bottomPolyline view.depthPerception with
  | none => (log, false)
  | some dewarper =>
    match gridLoop E dewarper num_vert_grid_lines 0 E.newState curves log with
    | (log, none) => (log, false)
    | (log, some curves) => (⟨log.cmds ++ curves.map PaintCmd.drawPolyline, log.queries⟩, true)

/-- The frame `onPaint` draws when the model is not valid: the lines joining
the first points and the last points of the two curves, and the two curves. -/
def frameCmds (view : DewarpingView K) : List (PaintCmd K) :=
  [PaintCmd.drawLine (view.topPolyline.head view.top_ne) (view.bottomPolyline.head view.bottom_ne),
   PaintCmd.drawLine (view.topPolyline.getLast view.top_ne)
     (view.bottomPolyline.getLast view.bottom_ne),
   PaintCmd.drawPolyline view.topPolyline,
   PaintCmd.drawPolyline view.bottomPolyline]

/-- The method `DewarpingView::onPaint`: the margins, then the grid when the distortion
model is valid, then the frame when the model is not valid or something threw
while the grid was painted, then the marks of the two splines. -/
def onPaint (E : DewarperEngine K D St) (view : DewarpingView K) : PaintLog K St :=
  let log : PaintLog K St :=
    ⟨[PaintCmd.drawPolygon (view.virtMarginArea 0), PaintCmd.drawPolygon (view.virtMarginArea 1)], []⟩
  let valid_model := E.isValid view.topPolyline view.bottomPolyline
  let r : PaintLog K St × Bool := if valid_model then paintGrid E view log else (log, valid_model)
  let log := r.1
  let valid_model := r.2
  let log : PaintLog K St :=
    if !valid_model then ⟨log.cmds ++ frameCmds view, log.queries⟩ else log
  ⟨log.cmds ++ view.topSplineMarks ++ view.bottomSplineMarks, log.queries⟩

end OnPaint

section GridRun

variable {K D St : Type} [LinearOrderedField K]

/-- One call `dewarper.mapGeneratrix(x, state)`: the `x` and the cursor state
it was given, and the generatrix and cursor state it returned (`none` when it
threw). -/
structure GridCall (K St : Type) where
  x : K
  cursor : St
  result : Option (Generatrix K × St)

/-- The `x` of the passes `j, j + 1, ..., j + n - 1` of the grid loop. -/
def gridXs (j n : Nat) : List K :=
  (List.range' j n).map (fun (j : Nat) => (j : K) / ((num_vert_grid_lines : K) - 1))

/-- The calls of `mapGeneratrix` made when the `x` of the list are mapped in
order, each call with the cursor state the call before it returned, the first
with `state`, up to and including the first call that throws. -/
def gridCalls (E : DewarperEngine K D St) (dewarper : D) : List K → St → List (GridCall K St)
  | [], _ => []
  | x :: xs, state =>
    ⟨x, state, E.mapGeneratrix dewarper x state⟩ ::
      match E.mapGeneratrix dewarper x state with
      | none => []
      | some (_, state) => gridCalls E dewarper xs state

/-- The generatrices a list of calls returned. -/
def generatricesOf (calls : List (GridCall K St)) : List (Generatrix K) :=
  calls.filterMap (fun c => c.result.map Prod.fst)

/-- The grid line drawn for a generatrix: from its point at `y = 0` to its
point at `y = 1`. -/
def gridLine (gtx : Generatrix K) : PaintCmd K :=
  PaintCmd.drawLine (gtx.imgLine.pointAt (gtx.pln2img 0)) (gtx.imgLine.pointAt (gtx.pln2img 1))

/-- The `i`-th horizontal grid curve through a list of generatrices: the point
at `y = i / (num_hor_grid_lines - 1.0)` of each of them, in order. -/
def gridCurve (gens : List (Generatrix K)) (i : Nat) : List (Vec2d K) :=
  gens.map (fun gtx => gtx.imgLine.pointAt (gtx.pln2img ((i : K) / ((num_hor_grid_lines : K) - 1))))

end GridRun

/-- A dewarper over the rationals whose cursor counts the calls made and whose
`mapGeneratrix` throws once the cursor has reached `limit`; until then the
generatrix at `x` is the vertical segment from `(100 x, 0)` to `(100 x, 50)`. -/
def sampleDewarper (limit : Nat) : DewarperEngine ℚ Unit Nat where
  isValid _ _ := true
  construct _ _ _ := some ()
  newState := 0
  mapGeneratrix _ x state :=
    if state < limit then some (⟨⟨⟨100 * x, 0⟩, ⟨100 * x, 50⟩⟩, fun y => y⟩, state + 1) else none

/-- A view of two horizontal curves, without margins or spline marks. -/
def sampleView : DewarpingView ℚ where
  topPolyline := [⟨0, 0⟩, ⟨100, 0⟩]
  bottomPolyline := [⟨0, 50⟩, ⟨100, 50⟩]
  top_ne := by simp
  bottom_ne := by simp
  depthPerception := 2
  virtMarginArea _ := []
  topSplineMarks := []
  bottomSplineMarks := []

/-! ## The deskew view (`deskew::ImageView`) -/

/-- A rectangle with its top-left corner and its size (`QRectF`). -/
structure QRectF (K : Type) where
  x : K
  y : K
  width : K
  height : K
deriving DecidableEq, Repr

/-- The centre of a rectangle, as `QRectF::center` computes it:
`(x + width / 2, y + height / 2)`. -/
def QRectF.center {K : Type} [Add K] [Div K] [OfNat K 2] (r : QRectF K) : Vec2d K :=
  ⟨r.x + r.width / 2, r.y + r.height / 2⟩

/-- The value `qBound(lo, val, hi)` of Qt, which is `qMax(lo, qMin(hi, val))`. -/
def qBound {K : Type} [LinearOrder K] (lo val hi : K) : K := max lo (min hi val)

/-- A value of type `double` as far as its comparison with `==` goes: a number
of `K` or NaN.  (The infinities compare like numbers and are not told apart
from them.) -/
inductive Double (K : Type) where
  | finite (value : K)
  | nan
deriving Repr

/-- The comparison `a == b` of two values of type `double`: two numbers are
equal when they are the same number, and NaN is equal to nothing, not even to
itself. -/
def Double.eq {K : Type} [DecidableEq K] : Double K → Double K → Bool
  | Double.finite x, Double.finite y => decide (x = y)
  | _, _ => false

/-- The keyboard modifiers of an event (`Qt::KeyboardModifiers`), one flag for
each modifier. -/
structure KeyboardModifiers where
  shift : Bool
  control : Bool
  alt : Bool
  metaKey : Bool
  keypad : Bool
  groupSwitch : Bool
deriving DecidableEq, Repr

namespace KeyboardModifiers

/-- No modifier (`Qt::NoModifier`). -/
def NoModifier : KeyboardModifiers := ⟨false, false, false, false, false, false⟩

/-- The flag `Qt::ShiftModifier` alone. -/
def ShiftModifier : KeyboardModifiers := { NoModifier with shift := true }

/-- The flag `Qt::ControlModifier` alone. -/
def ControlModifier : KeyboardModifiers := { NoModifier with control := true }

/-- The union of two sets of modifiers (`operator|`). -/
def union (a b : KeyboardModifiers) : KeyboardModifiers :=
  ⟨a.shift || b.shift, a.control || b.control, a.alt || b.alt, a.metaKey || b.metaKey,
    a.keypad || b.keypad, a.groupSwitch || b.groupSwitch⟩

end KeyboardModifiers

/-- What `onWheelEvent` reads and writes of a `QWheelEvent`: its modifiers, its
`delta()`, and whether it has been accepted. -/
structure WheelEvent where
  modifiers : KeyboardModifiers
  delta : Int
  accepted : Bool
deriving DecidableEq, Repr

/-- The classes and constants `deskew::ImageView` works with that are not among
the sources; the model of the view takes them as parameters.  `X` is the type
of an `ImageTransformation`, `P` of an `ImagePresentation`. -/
structure DeskewEngine (K X P : Type) where
  /-- The value of `xform.postRotation()`, in degrees. -/
  postRotation : X → K
  /-- The transformation after `xform.setPostRotation(degrees)`. -/
  setPostRotation : X → K → X
  /-- The value of `xform.postRotationSin()`. -/
  postRotationSin : X → K
  /-- The value of `xform.postRotationCos()`. -/
  postRotationCos : X → K
  /-- The value of
  `ImagePresentation(xform.transform(), xform.resultingPreCropArea())`. -/
  presentation : X → P
  /-- The arcsine, `std::asin`. -/
  asin : K → K
  /-- The constant `constants::RAD2DEG`. -/
  RAD2DEG : K

/-- A call the view makes on its base class `ImageViewBase` to show a new
presentation. -/
inductive ViewUpdate (P : Type) where
  | updateTransform (presentation : P)
  | updateTransformPreservingScale (presentation : P)
deriving DecidableEq, Repr

/-- The state of a `deskew::ImageView`: the transformation `m_xform`; the value
of `getRotationArcSquare()`, which depends on the sizes of the viewport, of the
handle pixmap and of the scroll bars only, none of which the methods below
change; the calls made on the base class, in order; and the angles emitted
with the signal `manualDeskewAngleSet`, in order. -/
structure ImageView (K X P : Type) where
  xform : X
  arcSquare : QRectF K
  updates : List (ViewUpdate P)
  emitted : List K

namespace ImageView

variable {K X P : Type} [LinearOrderedField K]

/-- The constant `ImageView::m_maxRotationDeg`. -/
def m_maxRotationDeg : K := 45

/-- The method `ImageView::manualDeskewAngleSetExternally(degrees)`, on angles of
type `double`: nothing when `m_xform.postRotation() == degrees`; else the
post-rotation is set and the view is given the new presentation. -/
def manualDeskewAngleSetExternally (E : DeskewEngine (Double K) X P)
    (v : ImageView (Double K) X P) (degrees : Double K) : ImageView (Double K) X P :=
  if Double.eq (E.postRotation v.xform) degrees then v
  else
    let xform := E.setPostRotation v.xform degrees
    { v with
      xform := xform
      updates := v.updates ++ [ViewUpdate.updateTransform (E.presentation xform)] }

/-- The method `ImageView::onWheelEvent(event, interaction)`, with `captured`
the value of `interaction.captured()`: with exactly Ctrl held the wheel turns
the image by 0.1 degree per notch of 120, with exactly Ctrl and Shift by 0.05
degree, within 45 degrees either way. -/
def onWheelEvent (E : DeskewEngine K X P) (event : WheelEvent) (captured : Bool)
    (v : ImageView K X P) : WheelEvent × ImageView K X P :=
  if captured then (event, v)
  else
    let degree_fraction : Option K :=
      if event.modifiers = KeyboardModifiers.ControlModifier then some (1 / 10)
      else if event.modifiers
          = KeyboardModifiers.ControlModifier.union KeyboardModifiers.ShiftModifier then
        some (5 / 100)
      else none
    match degree_fraction with
    | none => (event, v)
    | some degree_fraction =>
      let event := { event with accepted := true }
      let delta : K := degree_fraction * (event.delta : K) / 120
      let angle_deg := E.postRotation v.xform - delta
      let angle_deg := qBound (-m_maxRotationDeg) angle_deg m_maxRotationDeg
      if angle_deg = E.postRotation v.xform then (event, v)
      else
        let xform := E.setPostRotation v.xform angle_deg
        (event,
          { v with
            xform := xform
            updates := v.updates
              ++ [ViewUpdate.updateTransformPreservingScale (E.presentation xform)]
            emitted := v.emitted ++ [E.postRotation xform] })

/-- The method `ImageView::getRotationHandles(arc_square)`: the left and the right
handle, on the circle inscribed in the arc square. -/
def getRotationHandles (E : DeskewEngine K X P) (v : ImageView K X P)
    (arc_square : QRectF K) : Vec2d K × Vec2d K :=
  let rot_sin := E.postRotationSin v.xform
  let rot_cos := E.postRotationCos v.xform
  let arc_radius := (1 / 2) * arc_square.width
  let arc_center := arc_square.center
  let left_handle : Vec2d K := ⟨-rot_cos * arc_radius, -rot_sin * arc_radius⟩
  let left_handle := left_handle.add arc_center
  let right_handle : Vec2d K := ⟨rot_cos * arc_radius, rot_sin * arc_radius⟩
  let right_handle := right_handle.add arc_center
  (left_handle, right_handle)

/-- The method `ImageView::handlePosition(idx)`. -/
def handlePosition (E : DeskewEngine K X P) (idx : Int) (v : ImageView K X P) : Vec2d K :=
  let handles := getRotationHandles E v v.arcSquare
  if idx = 0 then handles.1 else handles.2

/-- The method `ImageView::handleMoveRequest(idx, pos)`: the height of `pos` over
the centre of the arc square, taken within the arc radius, gives the angle
asked for by its arcsine (negated for the left handle, `idx == 0`), taken
within 45 degrees either way. -/
def handleMoveRequest (E : DeskewEngine K X P) (idx : Int) (pos : Vec2d K)
    (v : ImageView K X P) : ImageView K X P :=
  let arc_square := v.arcSquare
  let arc_radius := (1 / 2) * arc_square.width
  let abs_y := pos.y
  let rel_y := abs_y - arc_square.center.y
  let rel_y := qBound (-arc_radius) rel_y arc_radius
  let angle_rad := E.asin (rel_y / arc_radius)
  let angle_rad := if idx = 0 then -angle_rad else angle_rad
  let angle_deg := angle_rad * E.RAD2DEG
  let angle_deg := qBound (-m_maxRotationDeg) angle_deg m_maxRotationDeg
  if angle_deg = E.postRotation v.xform then v
  else
    let xform := E.setPostRotation v.xform angle_deg
    { v with
      xform := xform
      updates := v.updates
        ++ [ViewUpdate.updateTransformPreservingScale (E.presentation xform)] }

/-- The angle in degrees that `handleMoveRequest(idx, pos)` computes and compares
with the post-rotation. -/
def requestedAngle (E : DeskewEngine K X P) (idx : Int) (pos : Vec2d K)
    (v : ImageView K X P) : K :=
  let arc_radius := (1 / 2) * v.arcSquare.width
  let rel_y := qBound (-arc_radius) (pos.y - v.arcSquare.center.y) arc_radius
  let angle_rad := E.asin (rel_y / arc_radius)
  let angle_rad := if idx = 0 then -angle_rad else angle_rad
  qBound (-m_maxRotationDeg) (angle_rad * E.RAD2DEG) m_maxRotationDeg

end ImageView

/-- A transformation that is just its post-rotation angle in degrees, with the
sine, cosine and arcsine and the two conversion factors given: an engine on
which the model of the view can be evaluated. -/
def angleEngine {K : Type} [Mul K] (sin cos asin : K → K) (DEG2RAD RAD2DEG : K) :
    DeskewEngine K K K where
  postRotation x := x
  setPostRotation _ degrees := degrees
  postRotationSin x := sin (x * DEG2RAD)
  postRotationCos x := cos (x * DEG2RAD)
  presentation x := x
  asin := asin
  RAD2DEG := RAD2DEG

/-- A transformation that is just the angle stored in it, of any type `A`, with
`unit` for the conversion factor: an engine on which
`manualDeskewAngleSetExternally` can be evaluated with angles of type
`double`. -/
def storedAngleEngine (A : Type) (unit : A) : DeskewEngine A A A where
  postRotation x := x
  setPostRotation _ degrees := degrees
  postRotationSin x := x
  postRotationCos x := x
  presentation x := x
  asin x := x
  RAD2DEG := unit

/-- A view turned by 3 degrees, with an arc square of side 200. -/
def sampleDoubleView : ImageView (Double ℚ) (Double ℚ) (Double ℚ) :=
  ⟨Double.finite 3,
    ⟨Double.finite 0, Double.finite 0, Double.finite 200, Double.finite 200⟩, [], []⟩

/-! ## The units provider (`UnitsProvider`) -/

/-- The state of the `UnitsProvider`: the units `m_units`, the registered
listeners `m_unitsListeners` (a `std::list` of pointers, here of identities of
type `L`) in the order of registration, and the log of the calls
`listener->onUnitsChanged(units)` made so far.  The listeners are taken not to
call back into the provider. -/
structure UnitsProvider (U L : Type) where
  m_units : U
  m_unitsListeners : List L
  notified : List (L × U)

namespace UnitsProvider

variable {U L : Type}

/-- The method `UnitsProvider::unitsChanged()`: tells every registered listener
the current units, in the order of the list. -/
def unitsChanged (p : UnitsProvider U L) : UnitsProvider U L :=
  { p with notified := p.notified ++ p.m_unitsListeners.map (fun listener => (listener, p.m_units)) }

/-- The method `UnitsProvider::setUnits(units)`. -/
def setUnits (p : UnitsProvider U L) (units : U) : UnitsProvider U L :=
  unitsChanged { p with m_units := units }

/-- The method `UnitsProvider::addListener(listener)`: `push_back`. -/
def addListener (p : UnitsProvider U L) (listener : L) : UnitsProvider U L :=
  { p with m_unitsListeners := p.m_unitsListeners ++ [listener] }

/-- The method `UnitsProvider::removeListener(listener)`: `std::list::remove`,
which erases every element equal to `listener`. -/
def removeListener [DecidableEq L] (p : UnitsProvider U L) (listener : L) :
    UnitsProvider U L :=
  { p with m_unitsListeners := p.m_unitsListeners.filter (fun l => l ≠ listener) }

end UnitsProvider

/-! ## Theorems -/

section SqDist

variable {K : Type} [Field K]

/-- With unit weights and any orthonormal pair `u, v`, the quadratic form is
the squared distance to the origin of the approximant. -/
theorem evaluate_unit_weights (origin u v p : Vec2d K)
    (hu : u.squaredNorm = 1) (hv : v.squaredNorm = 1) (huv : u.dot v = 0) :
    (SqDistApproximant.mk origin u v 1 1).evaluate p = (p.sub origin).squaredNorm := by
  simp only [SqDistApproximant.evaluate, Vec2d.dot, Vec2d.sub, Vec2d.squaredNorm] at *
  have hvx : v.x = -u.y * (u.x * v.y - u.y * v.x) := by
    linear_combination u.x * huv - v.x * hu
  have hvy : v.y = u.x * (u.x * v.y - u.y * v.x) := by
    linear_combination u.y * huv - v.y * hu
  have hdet : (u.x * v.y - u.y * v.x) ^ 2 = 1 := by
    linear_combination (v.x * v.x + v.y * v.y) * hu + hv - (u.x * v.x + u.y * v.y) * huv
  generalize u.x * v.y - u.y * v.x = d at hvx hvy hdet
  rw [hvx, hvy]
  linear_combination ((p.x - origin.x) ^ 2 + (p.y - origin.y) ^ 2) * hu
    + (-u.y * (p.x - origin.x) + u.x * (p.y - origin.y)) ^ 2 * hdet

/-- Claim C1. `SqDistApproximant::pointDistance(T).evaluate(p)` equals the squared
Euclidean distance `|p - T|^2`, the control value of `test_point_distance`,
for every target `T` and every point `p` of the plane. -/
theorem pointDistance_evaluate_eq (T p : Vec2d K) :
    (SqDistApproximant.pointDistance T).evaluate p = tests.pointDistanceControl T p
      ∧ tests.pointDistanceControl T p = (p.x - T.x) ^ 2 + (p.y - T.y) ^ 2 := by
  simp only [SqDistApproximant.pointDistance, SqDistApproximant.evaluate,
    tests.pointDistanceControl, Vec2d.dot, Vec2d.sub, Vec2d.squaredNorm]
  constructor <;> ring

/-- The algebra behind the line-distance approximant: along the unit normal
`(-dy/s, dx/s)` the squared offset of `p - a` is the squared distance from `p`
to its orthogonal projection on the line through `a` with direction `(dx, dy)`,
`s` being the length of the direction. -/
theorem normal_offset_sq_eq {K : Type} [Field K] (dx dy s ax ay px py : K)
    (hs : s ≠ 0) (hq : s * s = dx * dx + dy * dy) :
    0 * (dx / s * (px - ax) + dy / s * (py - ay)) ^ 2
        + 1 * (-(dy / s) * (px - ax) + dx / s * (py - ay)) ^ 2
      = (ax + dx * ((dx * (px - ax) + dy * (py - ay)) / (dx * dx + dy * dy)) - px)
          * (ax + dx * ((dx * (px - ax) + dy * (py - ay)) / (dx * dx + dy * dy)) - px)
        + (ay + dy * ((dx * (px - ax) + dy * (py - ay)) / (dx * dx + dy * dy)) - py)
          * (ay + dy * ((dx * (px - ax) + dy * (py - ay)) / (dx * dx + dy * dy)) - py) := by
  have hs2 : s ^ 2 ≠ 0 := pow_ne_zero 2 hs
  have hq2 : dx * dx + dy * dy = s ^ 2 := by rw [← hq]; ring
  rw [hq2]
  have e1 : 0 * (dx / s * (px - ax) + dy / s * (py - ay)) ^ 2
        + 1 * (-(dy / s) * (px - ax) + dx / s * (py - ay)) ^ 2
      = (-dy * (px - ax) + dx * (py - ay)) ^ 2 / s ^ 2 := by
    field_simp
    ring
  have e2 : ∀ t : K, ax + dx * (t / s ^ 2) - px = (dx * t - (px - ax) * s ^ 2) / s ^ 2 := by
    intro t; field_simp; ring
  have e3 : ∀ t : K, ay + dy * (t / s ^ 2) - py = (dy * t - (py - ay) * s ^ 2) / s ^ 2 := by
    intro t; field_simp; ring
  rw [e1, e2, e3, div_mul_div_comm, div_mul_div_comm, ← add_div, div_eq_div_iff hs2 (mul_ne_zero hs2 hs2)]
  linear_combination (s ^ 2 * (((px - ax) ^ 2 + (py - ay) ^ 2) * s ^ 2
    - (dx * (px - ax) + dy * (py - ay)) ^ 2)) * hq2

/-- Claim C2. For a line `L` through two distinct points, and a square root of the
squared length of its direction, `SqDistApproximant::lineDistance(L).evaluate(p)`
equals `ToLineProjector(L).projectionSqDist(p)`, the squared perpendicular
distance from `p` to the infinite line through `L`, for every point `p`. -/
theorem lineDistance_evaluate_eq {K : Type} [LinearOrderedField K] (sqrt : K → K)
    (L : QLineF K) (p : Vec2d K) (hL : L.p1 ≠ L.p2)
    (hsqrt : sqrt (L.p2.sub L.p1).squaredNorm * sqrt (L.p2.sub L.p1).squaredNorm
      = (L.p2.sub L.p1).squaredNorm) :
    (SqDistApproximant.lineDistance sqrt L).evaluate p = tests.lineDistanceControl L p := by
  have hd : (L.p2.sub L.p1).squaredNorm ≠ 0 := by
    intro h0
    apply hL
    simp only [Vec2d.sub, Vec2d.squaredNorm] at h0
    obtain ⟨hx, hy⟩ := mul_self_add_mul_self_eq_zero.mp h0
    obtain ⟨⟨ax, ay⟩, ⟨bx, by1⟩⟩ := L
    simp only [Vec2d.mk.injEq] at hx hy ⊢
    exact ⟨(sub_eq_zero.mp hx).symm, (sub_eq_zero.mp hy).symm⟩
  have hs : sqrt (L.p2.sub L.p1).squaredNorm ≠ 0 := by
    intro h0
    rw [h0] at hsqrt
    exact hd (by rw [← hsqrt]; ring)
  exact normal_offset_sq_eq _ _ _ _ _ _ _ hs hsqrt

/-- Witness of C2: the line through `(0,0)` and `(3,4)` over the rationals, whose
direction has length 5, at the point `(1,2)`. -/
theorem lineDistance_evaluate_eq_witness :
    (⟨0, 0⟩ : Vec2d ℚ) ≠ ⟨3, 4⟩ ∧
      (SqDistApproximant.lineDistance (fun _ => (5 : ℚ)) ⟨⟨0, 0⟩, ⟨3, 4⟩⟩).evaluate ⟨1, 2⟩
        = tests.lineDistanceControl ⟨⟨0, 0⟩, ⟨3, 4⟩⟩ ⟨1, 2⟩ :=
  ⟨by simp, lineDistance_evaluate_eq (fun _ => (5 : ℚ)) ⟨⟨0, 0⟩, ⟨3, 4⟩⟩ ⟨1, 2⟩ (by simp)
    (by norm_num [Vec2d.sub, Vec2d.squaredNorm])⟩

/-- Claim C3. For every origin, every pair of directions `u`, `v`, every pair of
weights `m`, `n` and every point `p`, `SqDistApproximant(origin, u, v, m, n)`
evaluates at `p` to `m*(u.(p-origin))^2 + n*(v.(p-origin))^2`, the control value
of `test_general_case`. -/
theorem general_evaluate_eq (origin u v : Vec2d K) (m n : K) (p : Vec2d K) :
    (SqDistApproximant.mk origin u v m n).evaluate p
        = tests.generalCaseControl origin u v m n p
      ∧ tests.generalCaseControl origin u v m n p
        = m * (u.dot (p.sub origin)) ^ 2 + n * (v.dot (p.sub origin)) ^ 2 := by
  simp only [SqDistApproximant.evaluate, tests.generalCaseControl]
  constructor <;> ring

end SqDist

section InitNewSplineTheorems

variable {K : Type} [LinearOrderedField K]

/-- The control points `initNewSpline` gives an empty spline: the two ends with
tension 0 and, in `AUTO` mode, the points at 1/4, 2/4 and 3/4 of the line with
tension 1 between them. -/
theorem initNewSpline_controlPoints (p1 p2 : Vec2d K) (options : DewarpingOptions) :
    (initNewSpline ⟨[]⟩ p1 p2 options).controlPoints =
      if options.dewarpingMode = DewarpingMode.AUTO then
        [⟨p1, 0⟩, ⟨(QLineF.mk p1 p2).pointAt (1 / 4), 1⟩, ⟨(QLineF.mk p1 p2).pointAt (2 / 4), 1⟩,
          ⟨(QLineF.mk p1 p2).pointAt (3 / 4), 1⟩, ⟨p2, 0⟩]
      else [⟨p1, 0⟩, ⟨p2, 0⟩] := by
  by_cases hmode : options.dewarpingMode = DewarpingMode.AUTO <;>
    simp [initNewSpline, XSpline.appendControlPoint, hmode]

/-- Counterexample to C9 as stated: in `AUTO` mode the new spline has five
control points, neither two nor four. -/
theorem initNewSpline_count_counterexample :
    ¬ ((initNewSpline (⟨[]⟩ : XSpline ℚ) ⟨0, 0⟩ ⟨4, 0⟩ ⟨DewarpingMode.AUTO⟩).numControlPoints = 2 ∨
      (initNewSpline (⟨[]⟩ : XSpline ℚ) ⟨0, 0⟩ ⟨4, 0⟩ ⟨DewarpingMode.AUTO⟩).numControlPoints = 4) := by
  simp [XSpline.numControlPoints, initNewSpline_controlPoints]

/-- Claim C9 (amended). The spline `initNewSpline` creates from an empty spline, for
any two points `p1` and `p2` and any dewarping mode, has five control points in
`AUTO` mode and two in every other mode (hence at least 2): the first is `p1`,
the last is `p2`, and every control point lies on the segment from `p1` to
`p2`. -/
theorem initNewSpline_spans_segment (p1 p2 : Vec2d K) (options : DewarpingOptions) :
    (initNewSpline ⟨[]⟩ p1 p2 options).numControlPoints
        = (if options.dewarpingMode = DewarpingMode.AUTO then 5 else 2) ∧
      2 ≤ (initNewSpline ⟨[]⟩ p1 p2 options).numControlPoints ∧
      (initNewSpline ⟨[]⟩ p1 p2 options).positions.head? = some p1 ∧
      (initNewSpline ⟨[]⟩ p1 p2 options).positions.getLast? = some p2 ∧
      ∀ q ∈ (initNewSpline ⟨[]⟩ p1 p2 options).positions, OnSegment p1 p2 q := by
  have h0 : OnSegment p1 p2 p1 := ⟨0, le_refl 0, zero_le_one, by simp [QLineF.pointAt]⟩
  have h1 : OnSegment p1 p2 p2 := ⟨1, zero_le_one, le_refl 1, by simp [QLineF.pointAt]⟩
  have hq : ∀ t : K, 0 ≤ t → t ≤ 1 → OnSegment p1 p2 ((QLineF.mk p1 p2).pointAt t) :=
    fun t ht0 ht1 => ⟨t, ht0, ht1, rfl⟩
  have h14 := hq (1 / 4) (by norm_num) (by norm_num)
  have h24 := hq (2 / 4) (by norm_num) (by norm_num)
  have h34 := hq (3 / 4) (by norm_num) (by norm_num)
  by_cases hmode : options.dewarpingMode = DewarpingMode.AUTO
  · simp only [XSpline.numControlPoints, XSpline.positions, initNewSpline_controlPoints, hmode,
      if_true]
    refine ⟨rfl, by simp, rfl, rfl, ?_⟩
    intro q hmem
    simp only [List.map_cons, List.map_nil, List.mem_cons, List.mem_singleton] at hmem
    rcases hmem with rfl | rfl | rfl | rfl | rfl | h
    · exact h0
    · exact h14
    · exact h24
    · exact h34
    · exact h1
    · simp at h
  · simp only [XSpline.numControlPoints, XSpline.positions, initNewSpline_controlPoints, hmode,
      if_false]
    refine ⟨rfl, by simp, rfl, rfl, ?_⟩
    intro q hmem
    simp only [List.map_cons, List.map_nil, List.mem_cons, List.mem_singleton] at hmem
    rcases hmem with rfl | rfl | h
    · exact h0
    · exact h1
    · simp at h

end InitNewSplineTheorems

section FitSplineTheorems

variable {K F : Type} [LinearOrderedField K]

/-- A polyline with at least two points is not empty, so it has a `front()`
and a `back()`. -/
theorem ne_nil_of_two_le {α : Type} {l : List α} (h : 2 ≤ l.length) : l ≠ [] := by
  rintro rfl
  simp at h

/-- One pass of the fitting loop, in terms of the step it logs: a looped step is
rolled back and ends the loop, a step improving by less than 0.5 percent is
kept and ends the loop, any other step is kept and the loop goes on with the
balancer advanced. -/
theorem fitLoop_succ (E : SpfitEngine K F) (ms : PolylineModelShape K) (n : Nat)
    (st : FitState K F) :
    fitLoop E ms (n + 1) st =
      if (passStep E ms st).looped then
        ⟨st.spline, { (passResult E ms st).1 with undoSlot := none }, st.balancer,
          st.steps ++ [passStep E ms st]⟩
      else if (passStep E ms st).improvement < 1 / 2 then
        ⟨(passStep E ms st).after, (passResult E ms st).1, st.balancer,
          st.steps ++ [passStep E ms st]⟩
      else
        fitLoop E ms n ⟨(passStep E ms st).after, (passResult E ms st).1,
          st.balancer.nextIteration, st.steps ++ [passStep E ms st]⟩ := by
  rfl

/-- The run of the fitting loop from a state `st` with `n` iterations remaining:
it appends at most `n` steps to the log (at least one when `n > 0`), the steps
form a chain from the spline and balancer of `st`, the spline it leaves is
the final spline of those steps, and when it used fewer than `n` iterations
its last step looped or improved by less than 0.5 percent. -/
theorem fitLoop_run (E : SpfitEngine K F) (ms : PolylineModelShape K) :
    ∀ (n : Nat) (st : FitState K F), ∃ new : List (FitStep K),
      (fitLoop E ms n st).steps = st.steps ++ new ∧ new.length ≤ n ∧
      (0 < n → new ≠ []) ∧
      StepChain E st.spline st.balancer.iteration new ∧
      (fitLoop E ms n st).spline = finalSpline st.spline new ∧
      (new.length < n → ∃ l, new.getLast? = some l ∧
        (l.looped = true ∨ l.improvement < 1 / 2)) := by
  intro n
  induction n with
  | zero =>
    intro st
    exact ⟨[], by simp [fitLoop], by simp, by simp, trivial, by simp [fitLoop, finalSpline],
      by simp⟩
  | succ n ih =>
    intro st
    rw [fitLoop_succ]
    have hb : (passStep E ms st).before = st.spline := rfl
    have hk : (passStep E ms st).balancerIteration = st.balancer.iteration := rfl
    have hl : (passStep E ms st).looped = E.splineHasLoops (passStep E ms st).after := rfl
    generalize passStep E ms st = step at hb hk hl ⊢
    generalize (passResult E ms st).1 = fitter
    split_ifs with hloop hconv
    · refine ⟨[step], rfl, by simp, by simp, ?_, ?_, ?_⟩
      · simp [StepChain, hb, hk, hl]
      · simp [finalSpline, hloop, hb]
      · intro _
        exact ⟨_, rfl, Or.inl hloop⟩
    · refine ⟨[step], rfl, by simp, by simp, ?_, ?_, ?_⟩
      · simp [StepChain, hb, hk, hl]
      · simp [finalSpline, hloop]
      · intro _
        exact ⟨_, rfl, Or.inr hconv⟩
    · obtain ⟨new, h1, h2, h3, h4, h5, h6⟩ :=
        ih ⟨step.after, fitter, st.balancer.nextIteration, st.steps ++ [step]⟩
      refine ⟨step :: new, ?_, ?_, by simp, ?_, ?_, ?_⟩
      · rw [h1]; simp
      · simp; omega
      · refine ⟨hb, hk, hl, fun _ => ⟨by simpa using hloop, not_lt.mp hconv⟩, ?_⟩
        simpa [LinearForceBalancer.nextIteration] using h4
      · rw [h5]
        simp [finalSpline, hloop]
      · intro hlt
        have hlt2 : new.length < n := by simpa using hlt
        obtain ⟨l, hl, hstop⟩ := h6 hlt2
        refine ⟨l, ?_, hstop⟩
        rw [List.getLast?_cons, hl]
        rfl

/-- What a run of `fitSpline` leaves: between 1 and 20 steps, which form a chain
from the given spline with the balancer not yet advanced; the final spline of
that chain; and, when fewer than 20 steps were made, a last step that looped
or improved by less than 0.5 percent. -/
theorem fitSpline_run (E : SpfitEngine K F) (spline : XSpline K)
    (polyline : List (Vec2d K)) (h : polyline ≠ []) :
    (fitSpline E spline polyline h).steps ≠ [] ∧
      (fitSpline E spline polyline h).steps.length ≤ 20 ∧
      StepChain E spline 0 (fitSpline E spline polyline h).steps ∧
      (fitSpline E spline polyline h).spline
        = finalSpline spline (fitSpline E spline polyline h).steps ∧
      ((fitSpline E spline polyline h).steps.length < 20 →
        ∃ l, (fitSpline E spline polyline h).steps.getLast? = some l ∧
          (l.looped = true ∨ l.improvement < 1 / 2)) := by
  unfold fitSpline
  simp only
  generalize hst : FitState.mk spline _ _ ([] : List (FitStep K)) = st
  obtain ⟨new, h1, h2, h3, h4, h5, h6⟩ := fitLoop_run E ⟨polyline⟩ 20 st
  have e1 : st.spline = spline := by rw [← hst]
  have e2 : st.steps = [] := by rw [← hst]
  have e3 : st.balancer.iteration = 0 := by rw [← hst]; rfl
  rw [e2, List.nil_append] at h1
  rw [e1] at h4 h5
  rw [e3] at h4
  rw [h1]
  exact ⟨h3 (by norm_num), h2, h4, h5, h6⟩

/-- Two lists related element by element have related elements at every index
of the first. -/
theorem forall₂_getElem?_left {α β : Type} {R : α → β → Prop} {l1 : List α} {l2 : List β}
    (h : List.Forall₂ R l1 l2) :
    ∀ (i : Nat) (a : α), l1[i]? = some a → ∃ b, l2[i]? = some b ∧ R a b := by
  induction h with
  | nil => intro i a hi; simp at hi
  | cons hab _ ih =>
    intro i a hi
    cases i with
    | zero =>
      simp only [List.getElem?_cons_zero, Option.some.injEq] at hi
      subst hi
      exact ⟨_, by simp, hab⟩
    | succ i =>
      simp only [List.getElem?_cons_succ] at hi ⊢
      exact ih i a hi

/-- Recording the calls of the solver does not change the run of the loop:
without the record, the run on the recording engine is the run on the engine
itself. -/
theorem fitLoop_plain (E : SpfitEngine K F) (ms : PolylineModelShape K) :
    ∀ (n : Nat) (st : FitState K (F × List (SolveCall K F))),
      (fitLoop (recordingEngine E) ms n st).plain = fitLoop E ms n st.plain := by
  intro n
  induction n with
  | zero => intro st; rfl
  | succ n ih =>
    intro st
    have hs : passStep (recordingEngine E) ms st = passStep E ms st.plain := rfl
    have hr : (passResult (recordingEngine E) ms st).1.plain = (passResult E ms st.plain).1 :=
      rfl
    rw [fitLoop_succ, fitLoop_succ, hs]
    split_ifs
    · rfl
    · rfl
    · rw [ih]
      rfl

/-- Recording the calls of the solver does not change the run of `fitSpline`. -/
theorem fitSpline_plain (E : SpfitEngine K F) (spline : XSpline K)
    (polyline : List (Vec2d K)) (h : polyline ≠ []) :
    (fitSpline (recordingEngine E) spline polyline h).plain = fitSpline E spline polyline h := by
  unfold fitSpline
  rw [fitLoop_plain]
  rfl

/-- The calls of the solver that a run of the loop makes: the recording engine
has one new call for each step logged, in order; each call is the one logged
as that step, made by a fitter with the constraints and sampling parameters
of the state the run starts from, with the weight its balancer gives; and the
first of them is the call of the first pass. -/
theorem fitLoop_recorded (E : SpfitEngine K F) (ms : PolylineModelShape K) :
    ∀ (n : Nat) (st : FitState K (F × List (SolveCall K F))),
      ∃ (newcalls : List (SolveCall K F)) (newsteps : List (FitStep K)),
        (fitLoop (recordingEngine E) ms n st).fitter.optimizer.2
          = st.fitter.optimizer.2 ++ newcalls ∧
        (fitLoop (recordingEngine E) ms n st).steps = st.steps ++ newsteps ∧
        List.Forall₂ (CallOf E st.fitter.constraints st.fitter.samplingParams st.balancer)
          newcalls newsteps ∧
        (∀ c, newcalls.head? = some c → c = passCall E ms st.plain) := by
  intro n
  induction n with
  | zero =>
    intro st
    exact ⟨[], [], by simp [fitLoop], by simp [fitLoop], List.Forall₂.nil, by simp⟩
  | succ n ih =>
    intro st
    have hcall : (passResult (recordingEngine E) ms st).1.optimizer.2
        = st.fitter.optimizer.2 ++ [passCall E ms st.plain] := rfl
    have hof : CallOf E st.fitter.constraints st.fitter.samplingParams st.balancer
        (passCall E ms st.plain) (passStep (recordingEngine E) ms st) :=
      ⟨rfl, rfl, rfl, rfl, rfl, rfl, rfl, rfl, rfl⟩
    have hcs : (passResult (recordingEngine E) ms st).1.constraints = st.fitter.constraints :=
      rfl
    have hsp : (passResult (recordingEngine E) ms st).1.samplingParams
        = st.fitter.samplingParams := rfl
    rw [fitLoop_succ]
    generalize passStep (recordingEngine E) ms st = step at hof ⊢
    generalize passCall E ms st.plain = call at hcall hof ⊢
    generalize (passResult (recordingEngine E) ms st).1 = fitter at hcall hcs hsp ⊢
    split_ifs with hloop hconv
    · exact ⟨[call], [step], hcall, rfl, List.Forall₂.cons hof List.Forall₂.nil, by simp⟩
    · exact ⟨[call], [step], hcall, rfl, List.Forall₂.cons hof List.Forall₂.nil, by simp⟩
    · obtain ⟨newcalls, newsteps, h1, h2, h3, _⟩ :=
        ih ⟨step.after, fitter, st.balancer.nextIteration, st.steps ++ [step]⟩
      refine ⟨call :: newcalls, step :: newsteps, ?_, ?_, List.Forall₂.cons hof ?_, by simp⟩
      · rw [h1, hcall]; simp
      · rw [h2]; simp
      · simp only [hcs, hsp] at h3
        exact h3

/-- The calls of the solver that `fitSpline` makes: one for each step of the
log, in order, each the call logged as that step, made with the two
constraints on the ends and the sampling distance 10, with the weight that
the balancer scheduled from 0.8 to 0.1 over 19 iterations gives; the first of
them on the given spline, by the fitter as it stands at the first call. -/
theorem fitSpline_recorded (E : SpfitEngine K F) (spline : XSpline K)
    (polyline : List (Vec2d K)) (h : polyline ≠ []) :
    List.Forall₂
        (CallOf E ⟨[(0, polyline.head h), (1, polyline.getLast h)]⟩ ⟨10⟩ ⟨8 / 10, 1 / 10, 19, 0⟩)
        (solveCalls E spline polyline h) (fitSpline E spline polyline h).steps ∧
      (∀ c, (solveCalls E spline polyline h).head? = some c →
        c.fitter = firstFitter E spline polyline h ∧ c.spline = spline) := by
  have hsteps : (fitSpline (recordingEngine E) spline polyline h).steps
      = (fitSpline E spline polyline h).steps :=
    congrArg FitState.steps (fitSpline_plain E spline polyline h)
  obtain ⟨newcalls, newsteps, h1, h2, h3, h4⟩ := fitLoop_recorded E ⟨polyline⟩ 20
    ⟨spline,
      ((SplineFitter.new (recordingEngine E) spline).setConstraints
        ((ConstraintSet.new.constrainSplinePoint 0 (polyline.head h)).constrainSplinePoint 1
          (polyline.getLast h))).setSamplingParams ⟨10⟩,
      ((LinearForceBalancer.new (8 / 10 : K)).setTargetRatio (1 / 10)).setIterationsToTarget
        (((20 : Nat) : Int) - 1), []⟩
  have hc : solveCalls E spline polyline h = newcalls := by
    have : solveCalls E spline polyline h = [] ++ newcalls := h1
    simpa using this
  have hs : (fitSpline E spline polyline h).steps = newsteps := by
    rw [← hsteps]
    have : (fitSpline (recordingEngine E) spline polyline h).steps = [] ++ newsteps := h2
    simpa using this
  rw [hc, hs]
  refine ⟨?_, ?_⟩
  · have e19 : (((20 : Nat) : Int) - 1) = 19 := by norm_num
    simpa [LinearForceBalancer.new, LinearForceBalancer.setTargetRatio,
      LinearForceBalancer.setIterationsToTarget, SplineFitter.setConstraints,
      SplineFitter.setSamplingParams, ConstraintSet.constrainSplinePoint, ConstraintSet.new,
      e19] using h3
  · intro c hc0
    rw [h4 c hc0]
    exact ⟨rfl, rfl⟩

/-- Claim C4. For every initial spline and every target polyline of length at least
2, `fitSpline` makes at least one and at most 20 calls of
`SplineFitter::optimize`, whatever the engine (improvement percentages, loop
checks) returns; being a total function, it terminates.  The calls are those
the engine itself records, each with what the solver returned for it; there
is one step in the log of the run for each of them, and recording them does
not change the spline the run leaves. -/
theorem fitSpline_step_count (E : SpfitEngine K F) (spline : XSpline K)
    (polyline : List (Vec2d K)) (hlen : 2 ≤ polyline.length) :
    1 ≤ (solveCalls E spline polyline (ne_nil_of_two_le hlen)).length ∧
      (solveCalls E spline polyline (ne_nil_of_two_le hlen)).length ≤ 20 ∧
      (∀ c ∈ solveCalls E spline polyline (ne_nil_of_two_le hlen),
        (E.solve c.fitter c.spline c.weight).2 = (c.after, c.improvement)) ∧
      (fitSpline E spline polyline (ne_nil_of_two_le hlen)).steps.length
        = (solveCalls E spline polyline (ne_nil_of_two_le hlen)).length ∧
      (fitSpline (recordingEngine E) spline polyline (ne_nil_of_two_le hlen)).spline
        = (fitSpline E spline polyline (ne_nil_of_two_le hlen)).spline := by
  obtain ⟨h1, h2, _⟩ := fitSpline_run E spline polyline (ne_nil_of_two_le hlen)
  obtain ⟨hf, _⟩ := fitSpline_recorded E spline polyline (ne_nil_of_two_le hlen)
  have hl := hf.length_eq
  refine ⟨?_, ?_, ?_, hl.symm, ?_⟩
  · rw [hl]; exact List.length_pos.mpr h1
  · rw [hl]; exact h2
  · intro c hc
    obtain ⟨i, hi⟩ := List.mem_iff_getElem?.mp hc
    obtain ⟨s, _, hcs⟩ := forall₂_getElem?_left hf i c hi
    obtain ⟨_, _, _, _, _, _, _, ha, himp⟩ := hcs
    exact Prod.ext ha himp
  · exact congrArg FitState.spline (fitSpline_plain E spline polyline (ne_nil_of_two_le hlen))

/-- Witness of C4: the sample engine on the sample polyline. -/
theorem fitSpline_step_count_witness :
    2 ≤ samplePolyline.length ∧
      1 ≤ (solveCalls sampleEngine ⟨[]⟩ samplePolyline (ne_nil_of_two_le (by decide))).length ∧
      (solveCalls sampleEngine ⟨[]⟩ samplePolyline (ne_nil_of_two_le (by decide))).length
        ≤ 20 :=
  ⟨by decide,
    (fitSpline_step_count sampleEngine ⟨[]⟩ samplePolyline (by decide)).1,
    (fitSpline_step_count sampleEngine ⟨[]⟩ samplePolyline (by decide)).2.1⟩

/-- A property of splines that holds of every spline the solver returns under
the fitter's constraints, and of the spline the loop starts from, holds of the
spline the loop leaves. -/
theorem fitLoop_preserves (E : SpfitEngine K F) (ms : PolylineModelShape K)
    (P : XSpline K → Prop) (cs : ConstraintSet K)
    (hsolve : ∀ (fitter : SplineFitter K F) (s : XSpline K) (w : K),
      fitter.constraints = cs → P (E.solve fitter s w).2.1) :
    ∀ (n : Nat) (st : FitState K F), st.fitter.constraints = cs → P st.spline →
      P (fitLoop E ms n st).spline := by
  intro n
  induction n with
  | zero => intro st _ hP; exact hP
  | succ n ih =>
    intro st hcs hP
    have hafter : P (passStep E ms st).after :=
      hsolve ((st.fitter.addAttractionForces E st.spline ms).addInternalForce E st.spline)
        st.spline _ hcs
    have hfit : (passResult E ms st).1.constraints = cs := hcs
    rw [fitLoop_succ]
    split_ifs
    · exact hP
    · exact hafter
    · exact ih _ hfit hafter

end FitSplineTheorems

section GridCallsTheorems

variable {K D St : Type}

/-- Every logged call records what `mapGeneratrix` returned for its `x` and
cursor; the first call is made with the state the run starts from; and each
further call is made with the cursor state the call before it returned. -/
theorem gridCalls_thread (E : DewarperEngine K D St) (d : D) :
    ∀ (xs : List K) (state : St),
      (∀ c ∈ gridCalls E d xs state, c.result = E.mapGeneratrix d c.x c.cursor) ∧
      (∀ c, (gridCalls E d xs state)[0]? = some c → c.cursor = state) ∧
      (∀ j c c2, (gridCalls E d xs state)[j]? = some c →
        (gridCalls E d xs state)[j + 1]? = some c2 →
        ∃ gtx, E.mapGeneratrix d c.x c.cursor = some (gtx, c2.cursor)) := by
  intro xs
  induction xs with
  | nil => intro state; simp [gridCalls]
  | cons x xs ih =>
    intro state
    simp only [gridCalls]
    cases hmap : E.mapGeneratrix d x state with
    | none => simp [hmap]
    | some r =>
      obtain ⟨gtx, state2⟩ := r
      obtain ⟨ih1, ih2, ih3⟩ := ih state2
      refine ⟨?_, ?_, ?_⟩
      · intro c hc
        simp only [List.mem_cons] at hc
        rcases hc with rfl | hc
        · exact hmap.symm
        · exact ih1 c hc
      · intro c hc
        simp only [List.getElem?_cons_zero, Option.some.injEq] at hc
        rw [← hc]
      · intro j c c2 hc hc2
        simp only [List.getElem?_cons_succ] at hc2
        cases j with
        | zero =>
          simp only [List.getElem?_cons_zero, Option.some.injEq] at hc
          subst hc
          exact ⟨gtx, by rw [hmap, ih2 c2 hc2]⟩
        | succ j =>
          simp only [List.getElem?_cons_succ] at hc
          exact ih3 j c c2 hc hc2

/-- When no logged call threw, there is one call for each `x`, in order, and the
generatrices returned are, call by call, the results of the calls. -/
theorem gridCalls_of_no_throw (E : DewarperEngine K D St) (d : D) :
    ∀ (xs : List K) (state : St),
      (∀ c ∈ gridCalls E d xs state, c.result ≠ none) →
      (gridCalls E d xs state).map (fun c => c.x) = xs ∧
        (gridCalls E d xs state).map (fun c => c.result.map Prod.fst)
          = (generatricesOf (gridCalls E d xs state)).map some ∧
        (generatricesOf (gridCalls E d xs state)).length = xs.length := by
  intro xs
  induction xs with
  | nil => intro state _; simp [gridCalls, generatricesOf]
  | cons x xs ih =>
    intro state hall
    simp only [gridCalls] at hall ⊢
    cases hmap : E.mapGeneratrix d x state with
    | none =>
      exact absurd hmap (by simpa using hall ⟨x, state, E.mapGeneratrix d x state⟩ (by simp))
    | some r =>
      obtain ⟨gtx, state2⟩ := r
      rw [hmap] at hall
      obtain ⟨h1, h2, h3⟩ := ih state2 (fun c hc => hall c (by simp [hc]))
      simp only [generatricesOf] at h2 h3 ⊢
      simp [h1, h2, h3]

end GridCallsTheorems

section OnPaintTheorems

variable {K D St : Type} [LinearOrderedField K]

/-- The grid loop in terms of the calls it makes: it logs every call, draws the
grid line of every generatrix returned, and gives the curves, each extended by
every generatrix, exactly when none of its `remaining` calls threw. -/
theorem gridLoop_eq (E : DewarperEngine K D St) (d : D) :
    ∀ (remaining j : Nat) (state : St) (curves : List (List (Vec2d K))) (log : PaintLog K St),
      gridLoop E d remaining j state curves log =
        (⟨log.cmds ++ (generatricesOf (gridCalls E d (gridXs j remaining) state)).map gridLine,
          log.queries ++ (gridCalls E d (gridXs j remaining) state).map
            (fun c => (c.x, c.cursor))⟩,
          if (generatricesOf (gridCalls E d (gridXs j remaining) state)).length = remaining then
            some ((generatricesOf (gridCalls E d (gridXs j remaining) state)).foldl
              (fun cs gtx => pushGeneratrix gtx cs) curves)
          else none) := by
  intro remaining
  induction remaining with
  | zero =>
    intro j state curves log
    simp [gridLoop, gridXs, gridCalls, generatricesOf]
  | succ n ih =>
    intro j state curves log
    have hxs : (gridXs j (n + 1) : List K)
        = ((j : K) / ((num_vert_grid_lines : K) - 1)) :: gridXs (j + 1) n := by
      simp [gridXs, List.range'_succ]
    rw [hxs]
    simp only [gridLoop, gridCalls]
    cases hmap : E.mapGeneratrix d ((j : K) / ((num_vert_grid_lines : K) - 1)) state with
    | none => simp [generatricesOf]
    | some r =>
      obtain ⟨gtx, state2⟩ := r
      simp only [ih]
      simp [generatricesOf, gridLine]

/-- Extending curves that are given by a function of their index. -/
theorem pushGeneratrix_map (gtx : Generatrix K) (f : Nat → List (Vec2d K)) :
    pushGeneratrix gtx ((List.range num_hor_grid_lines).map f) =
      (List.range num_hor_grid_lines).map (fun i => f i ++ gridCurve [gtx] i) := by
  unfold pushGeneratrix
  rw [List.zipWith_map_right, List.zipWith_same]
  rfl

/-- Extending the curves by each generatrix of a list in turn appends to the
`i`-th curve the `i`-th grid curve through that list. -/
theorem foldl_pushGeneratrix (gens : List (Generatrix K)) :
    ∀ f : Nat → List (Vec2d K),
      gens.foldl (fun cs gtx => pushGeneratrix gtx cs) ((List.range num_hor_grid_lines).map f)
        = (List.range num_hor_grid_lines).map (fun i => f i ++ gridCurve gens i) := by
  induction gens with
  | nil => intro f; simp [gridCurve]
  | cons g rest ih =>
    intro f
    rw [List.foldl_cons, pushGeneratrix_map, ih]
    simp [gridCurve]

/-- The `try` block of `onPaint`, in terms of the calls the grid loop makes. -/
theorem paintGrid_eq (E : DewarperEngine K D St) (view : DewarpingView K) (log : PaintLog K St)
    (d : D) (hd : E.construct view.topPolyline view.bottomPolyline view.depthPerception = some d) :
    paintGrid E view log =
      if (generatricesOf (gridCalls E d (gridXs 0 num_vert_grid_lines) E.newState)).length
          = num_vert_grid_lines then
        (⟨log.cmds
            ++ (generatricesOf (gridCalls E d (gridXs 0 num_vert_grid_lines) E.newState)).map gridLine
            ++ (List.range num_hor_grid_lines).map (fun i => PaintCmd.drawPolyline
                (gridCurve (generatricesOf
                  (gridCalls E d (gridXs 0 num_vert_grid_lines) E.newState)) i)),
          log.queries ++ (gridCalls E d (gridXs 0 num_vert_grid_lines) E.newState).map
            (fun c => (c.x, c.cursor))⟩, true)
      else
        (⟨log.cmds
            ++ (generatricesOf (gridCalls E d (gridXs 0 num_vert_grid_lines) E.newState)).map gridLine,
          log.queries ++ (gridCalls E d (gridXs 0 num_vert_grid_lines) E.newState).map
            (fun c => (c.x, c.cursor))⟩, false) := by
  have hrep : (List.replicate num_hor_grid_lines [] : List (List (Vec2d K)))
      = (List.range num_hor_grid_lines).map (fun _ => []) := by
    simp [num_hor_grid_lines, List.range, List.range.loop, List.replicate]
  simp only [paintGrid, hd, gridLoop_eq, hrep, foldl_pushGeneratrix]
  split_ifs with hlen
  · simp
  · rfl

/-- The `x` of the thirty passes of the grid loop are `j / 29` for
`j = 0, ..., 29`; they increase strictly, lie between 0 and 1, start at 0
and finish at 1. -/
theorem gridXs_facts :
    (gridXs 0 num_vert_grid_lines : List K)
        = (List.range 30).map (fun (j : Nat) => (j : K) / 29) ∧
      (gridXs 0 num_vert_grid_lines : List K).Pairwise (fun a b => a < b) ∧
      (∀ x ∈ (gridXs 0 num_vert_grid_lines : List K), 0 ≤ x ∧ x ≤ 1) ∧
      (gridXs 0 num_vert_grid_lines : List K).head? = some 0 ∧
      (gridXs 0 num_vert_grid_lines : List K).getLast? = some 1 := by
  have h29 : ((num_vert_grid_lines : K) - 1) = 29 := by
    simp only [num_vert_grid_lines]; norm_num
  have hxs : (gridXs 0 num_vert_grid_lines : List K)
      = (List.range 30).map (fun (j : Nat) => (j : K) / 29) := by
    simp only [gridXs, h29, List.range_eq_range']
    rfl
  refine ⟨hxs, ?_, ?_, ?_, ?_⟩
  · rw [hxs, List.pairwise_map]
    refine List.Pairwise.imp ?_ (List.pairwise_lt_range 30)
    intro a b hab
    have : (a : K) < (b : K) := by exact_mod_cast hab
    exact div_lt_div_of_pos_right this (by norm_num)
  · intro x hx
    rw [hxs, List.mem_map] at hx
    obtain ⟨j, hj, rfl⟩ := hx
    have hj2 : j ≤ 29 := by
      have := List.mem_range.mp hj
      omega
    have hj3 : (j : K) ≤ 29 := by exact_mod_cast hj2
    constructor
    · positivity
    · rw [div_le_one (by norm_num)]
      exact hj3
  · rw [hxs]
    simp [List.range, List.range.loop]
  · rw [hxs]
    simp [List.range, List.range.loop]

/-- The sample dewarper does not throw as long as the calls made stay below
its limit. -/
theorem sampleDewarper_no_throw (limit : Nat) :
    ∀ (xs : List ℚ) (state : Nat), state + xs.length ≤ limit →
      ∀ c ∈ gridCalls (sampleDewarper limit) () xs state, c.result ≠ none := by
  intro xs
  induction xs with
  | nil => intro state _ c hc; simp [gridCalls] at hc
  | cons x xs ih =>
    intro state hle c hc
    have hlt : state < limit := by
      simp only [List.length_cons] at hle
      omega
    have hmap : (sampleDewarper limit).mapGeneratrix () x state
        = some (⟨⟨⟨100 * x, 0⟩, ⟨100 * x, 50⟩⟩, fun y => y⟩, state + 1) := by
      simp [sampleDewarper, hlt]
    simp only [gridCalls, hmap, List.mem_cons] at hc
    rcases hc with rfl | hc
    · simp
    · exact ih (state + 1) (by simp only [List.length_cons] at hle; omega) c hc

/-- Claim C7. When the distortion model is valid, the dewarper is constructed and no
`mapGeneratrix` call throws, `onPaint` queries the dewarper through one cursor
created for that paint (the first call gets the new state, each further call
the state the call before it returned), with `mapGeneratrix` called exactly 30
times, at `x = j / 29` for `j = 0, ..., 29`: the `x` increase strictly, lie in
`[0, 1]`, start at 0 and end at 1.  Each generatrix is sampled at `y = i / 29`
for `i = 0, ..., 29`, so that the 30 horizontal grid curves drawn have 30
points each, the `j`-th of them from the generatrix of the `j`-th call. -/
theorem onPaint_grid_sampling (E : DewarperEngine K D St) (view : DewarpingView K) (d : D)
    (hvalid : E.isValid view.topPolyline view.bottomPolyline = true)
    (hd : E.construct view.topPolyline view.bottomPolyline view.depthPerception = some d)
    (hok : ∀ c ∈ gridCalls E d (gridXs 0 num_vert_grid_lines) E.newState, c.result ≠ none) :
    (onPaint E view).queries.map Prod.fst = (List.range 30).map (fun (j : Nat) => (j : K) / 29) ∧
      ((onPaint E view).queries.map Prod.fst).Pairwise (fun a b => a < b) ∧
      (∀ x ∈ (onPaint E view).queries.map Prod.fst, 0 ≤ x ∧ x ≤ 1) ∧
      ((onPaint E view).queries.map Prod.fst).head? = some 0 ∧
      ((onPaint E view).queries.map Prod.fst).getLast? = some 1 ∧
      (∀ q : K × St, (onPaint E view).queries[0]? = some q → q.2 = E.newState) ∧
      (∀ (j : Nat) (q q2 : K × St), (onPaint E view).queries[j]? = some q →
        (onPaint E view).queries[j + 1]? = some q2 →
        ∃ gtx, E.mapGeneratrix d q.1 q.2 = some (gtx, q2.2)) ∧
      ∃ gens : List (Generatrix K), gens.length = 30 ∧
        (∀ (j : Nat) (q : K × St), (onPaint E view).queries[j]? = some q →
          ∃ gtx state, E.mapGeneratrix d q.1 q.2 = some (gtx, state) ∧ gens[j]? = some gtx) ∧
        (onPaint E view).cmds =
          [PaintCmd.drawPolygon (view.virtMarginArea 0),
            PaintCmd.drawPolygon (view.virtMarginArea 1)]
          ++ gens.map (fun gtx => PaintCmd.drawLine (gtx.imgLine.pointAt (gtx.pln2img 0))
              (gtx.imgLine.pointAt (gtx.pln2img 1)))
          ++ (List.range 30).map (fun (i : Nat) => PaintCmd.drawPolyline
              (gens.map (fun gtx => gtx.imgLine.pointAt (gtx.pln2img ((i : K) / 29)))))
          ++ view.topSplineMarks ++ view.bottomSplineMarks := by
  obtain ⟨hx1, hx2, hx3, hx4, hx5⟩ := @gridXs_facts K _
  obtain ⟨hc1, hc2, hc3⟩ := gridCalls_of_no_throw E d _ _ hok
  obtain ⟨ht1, ht2, ht3⟩ := gridCalls_thread E d (gridXs 0 num_vert_grid_lines) E.newState
  have hlen : (generatricesOf (gridCalls E d (gridXs 0 num_vert_grid_lines) E.newState)).length
      = num_vert_grid_lines := by
    rw [hc3]; simp [gridXs]
  have hq : (onPaint E view).queries
      = (gridCalls E d (gridXs 0 num_vert_grid_lines) E.newState).map
          (fun c => (c.x, c.cursor)) := by
    simp [onPaint, hvalid, paintGrid_eq E view _ d hd, hlen]
  have hqx : (onPaint E view).queries.map Prod.fst = gridXs 0 num_vert_grid_lines := by
    rw [hq, List.map_map]
    exact hc1
  have hget : ∀ (j : Nat) (q : K × St), (onPaint E view).queries[j]? = some q →
      ∃ c, (gridCalls E d (gridXs 0 num_vert_grid_lines) E.newState)[j]? = some c ∧
        q = (c.x, c.cursor) := by
    intro j q hj
    rw [hq, List.getElem?_map] at hj
    cases hc : (gridCalls E d (gridXs 0 num_vert_grid_lines) E.newState)[j]? with
    | none => rw [hc] at hj; simp at hj
    | some c =>
      rw [hc] at hj
      exact ⟨c, rfl, by simpa using hj.symm⟩
  refine ⟨by rw [hqx]; exact hx1, by rw [hqx]; exact hx2, by rw [hqx]; exact hx3,
    by rw [hqx]; exact hx4, by rw [hqx]; exact hx5, ?_, ?_, ?_⟩
  · intro q h0
    obtain ⟨c, hc, rfl⟩ := hget 0 q h0
    exact ht2 c hc
  · intro j q q2 hj hj2
    obtain ⟨c, hc, rfl⟩ := hget j q hj
    obtain ⟨c2, hc2', rfl⟩ := hget (j + 1) q2 hj2
    exact ht3 j c c2 hc hc2'
  · refine ⟨generatricesOf (gridCalls E d (gridXs 0 num_vert_grid_lines) E.newState),
      hlen, ?_, ?_⟩
    · intro j q hj
      obtain ⟨c, hc, rfl⟩ := hget j q hj
      have hres : (generatricesOf
          (gridCalls E d (gridXs 0 num_vert_grid_lines) E.newState))[j]?.map some
          = some (c.result.map Prod.fst) := by
        rw [← List.getElem?_map, ← hc2, List.getElem?_map, hc]
        rfl
      have hmem := ht1 c (List.getElem?_mem hc)
      cases hr : c.result with
      | none => exact absurd hr (hok c (List.getElem?_mem hc))
      | some r =>
        obtain ⟨gtx, state⟩ := r
        refine ⟨gtx, state, by rw [← hmem, hr], ?_⟩
        rw [hr] at hres
        cases hg : (generatricesOf
            (gridCalls E d (gridXs 0 num_vert_grid_lines) E.newState))[j]? with
        | none => rw [hg] at hres; simp at hres
        | some g =>
          rw [hg] at hres
          simp only [Option.map_some', Option.some.injEq] at hres
          rw [hres]
    · have h30 : (30 : K) - 1 = 29 := by norm_num
      simp [onPaint, hvalid, paintGrid_eq E view _ d hd, hlen, gridCurve, h30,
        num_hor_grid_lines]
      intro gtx _
      rfl

/-- Witness of C7: the sample dewarper that does not throw within 30 calls. -/
theorem onPaint_grid_sampling_witness :
    (sampleDewarper 30).isValid sampleView.topPolyline sampleView.bottomPolyline = true ∧
      (onPaint (sampleDewarper 30) sampleView).queries.map Prod.fst
        = (List.range 30).map (fun (j : Nat) => (j : ℚ) / 29) :=
  ⟨rfl, (onPaint_grid_sampling (sampleDewarper 30) sampleView () rfl rfl
    (sampleDewarper_no_throw 30 _ 0 (by simp [gridXs, num_vert_grid_lines]))).1⟩

/-- The fallback of `onPaint` when the distortion model is not valid: only the
frame is drawn between the margins and the spline marks, and the dewarper is
not queried. -/
theorem onPaint_invalid (E : DewarperEngine K D St) (view : DewarpingView K)
    (hvalid : E.isValid view.topPolyline view.bottomPolyline = false) :
    (onPaint E view).cmds =
        [PaintCmd.drawPolygon (view.virtMarginArea 0),
          PaintCmd.drawPolygon (view.virtMarginArea 1)]
        ++ frameCmds view ++ view.topSplineMarks ++ view.bottomSplineMarks ∧
      (onPaint E view).queries = [] := by
  simp [onPaint, hvalid]

/-- The fallback of `onPaint` when the constructor of the dewarper throws: only
the frame is drawn between the margins and the spline marks. -/
theorem onPaint_construct_throws (E : DewarperEngine K D St) (view : DewarpingView K)
    (hvalid : E.isValid view.topPolyline view.bottomPolyline = true)
    (hd : E.construct view.topPolyline view.bottomPolyline view.depthPerception = none) :
    (onPaint E view).cmds =
        [PaintCmd.drawPolygon (view.virtMarginArea 0),
          PaintCmd.drawPolygon (view.virtMarginArea 1)]
        ++ frameCmds view ++ view.topSplineMarks ++ view.bottomSplineMarks ∧
      (onPaint E view).queries = [] := by
  simp [onPaint, hvalid, paintGrid, hd]

/-- What `onPaint` draws when a `mapGeneratrix` call throws: the grid lines of
the generatrices mapped before the throw, then the frame; no grid curve. -/
theorem onPaint_mapGeneratrix_throws (E : DewarperEngine K D St) (view : DewarpingView K)
    (d : D) (hvalid : E.isValid view.topPolyline view.bottomPolyline = true)
    (hd : E.construct view.topPolyline view.bottomPolyline view.depthPerception = some d)
    (hthrow : (generatricesOf (gridCalls E d (gridXs 0 num_vert_grid_lines) E.newState)).length
      ≠ num_vert_grid_lines) :
    (onPaint E view).cmds =
      [PaintCmd.drawPolygon (view.virtMarginArea 0),
        PaintCmd.drawPolygon (view.virtMarginArea 1)]
      ++ (generatricesOf (gridCalls E d (gridXs 0 num_vert_grid_lines) E.newState)).map gridLine
      ++ frameCmds view ++ view.topSplineMarks ++ view.bottomSplineMarks := by
  simp [onPaint, hvalid, paintGrid_eq E view _ d hd, hthrow]

/-- Claim C8 (the code at a failing input). With a valid model, a dewarper that is
constructed, and a `mapGeneratrix` that throws at its third call, `onPaint`
has drawn the grid lines at `x = 0` and `x = 1/29` before it draws the frame:
the fallback is not just the frame. -/
theorem onPaint_grid_lines_before_frame :
    (onPaint (sampleDewarper 2) sampleView).cmds =
      [PaintCmd.drawPolygon [], PaintCmd.drawPolygon [],
        PaintCmd.drawLine ⟨0, 0⟩ ⟨0, 50⟩,
        PaintCmd.drawLine ⟨100 / 29, 0⟩ ⟨100 / 29, 50⟩,
        PaintCmd.drawLine ⟨0, 0⟩ ⟨0, 50⟩,
        PaintCmd.drawLine ⟨100, 0⟩ ⟨100, 50⟩,
        PaintCmd.drawPolyline [⟨0, 0⟩, ⟨100, 0⟩],
        PaintCmd.drawPolyline [⟨0, 50⟩, ⟨100, 50⟩]] := by
  have hxs : (gridXs 0 num_vert_grid_lines : List ℚ)
      = 0 :: (1 / 29) :: (2 / 29) :: gridXs 3 27 := by
    simp [gridXs, num_vert_grid_lines, List.range'_succ]
    norm_num
  have hgens : generatricesOf
      (gridCalls (sampleDewarper 2) () (gridXs 0 num_vert_grid_lines) (sampleDewarper 2).newState)
      = [⟨⟨⟨100 * 0, 0⟩, ⟨100 * 0, 50⟩⟩, fun y => y⟩,
          ⟨⟨⟨100 * (1 / 29), 0⟩, ⟨100 * (1 / 29), 50⟩⟩, fun y => y⟩] := by
    rw [hxs]
    simp [gridCalls, sampleDewarper, generatricesOf]
  rw [onPaint_mapGeneratrix_throws (sampleDewarper 2) sampleView () rfl rfl
    (by rw [hgens]; simp [num_vert_grid_lines])]
  rw [hgens]
  simp [gridLine, frameCmds, sampleView, QLineF.pointAt]
  norm_num

end OnPaintTheorems

section DeskewTheorems

open ImageView

variable {K X P : Type} [LinearOrderedField K]

/-- The value of `qBound(lo, val, hi)` lies between `lo` and `hi` when
`lo ≤ hi`, and is `val` when `val` does. -/
theorem qBound_facts (lo val hi : K) (h : lo ≤ hi) :
    lo ≤ qBound lo val hi ∧ qBound lo val hi ≤ hi ∧
      (lo ≤ val → val ≤ hi → qBound lo val hi = val) := by
  unfold qBound
  refine ⟨le_max_left _ _, max_le h (min_le_left _ _), ?_⟩
  intro h1 h2
  rw [min_eq_right h2, max_eq_right h1]

/-- The comparison `==` of doubles holds exactly between a number and itself. -/
theorem Double.eq_eq_true_iff (a b : Double K) :
    Double.eq a b = true ↔ ∃ x : K, a = Double.finite x ∧ b = Double.finite x := by
  cases a <;> cases b <;> simp [Double.eq, eq_comm]

/-- Counterexample to C12 as stated: with `d` NaN, which `==` finds equal to
nothing, the second of two calls sets the post-rotation and updates the view
again, so that two calls do not have the effect of one. -/
theorem manualDeskewAngleSetExternally_nan_counterexample :
    manualDeskewAngleSetExternally (storedAngleEngine (Double ℚ) (Double.finite 1))
        (manualDeskewAngleSetExternally (storedAngleEngine (Double ℚ) (Double.finite 1))
          sampleDoubleView Double.nan) Double.nan
      ≠ manualDeskewAngleSetExternally (storedAngleEngine (Double ℚ) (Double.finite 1))
          sampleDoubleView Double.nan := by
  intro h
  have hlen := congrArg (fun w => w.updates.length) h
  simp [manualDeskewAngleSetExternally, storedAngleEngine, sampleDoubleView, Double.eq] at hlen

/-- Claim C12 (amended). The method `manualDeskewAngleSetExternally(d)` short-circuits
on the equality `==` of doubles, which holds between a number and itself only:
when `postRotation() == d` the view is left as it is; otherwise, so whenever
`d` or the post-rotation is NaN, the post-rotation becomes exactly `d`,
whatever `d` is, and the view is given the new presentation by one
`updateTransform`, nothing else changing.  Hence two calls with the same `d`
other than NaN have the effect of one, while with NaN each call updates the
view.  The transformation is taken to return as post-rotation what was set
last. -/
theorem manualDeskewAngleSetExternally_effect (E : DeskewEngine (Double K) X P)
    (v : ImageView (Double K) X P) (d : Double K)
    (hset : ∀ (x : X) (a : Double K), E.postRotation (E.setPostRotation x a) = a) :
    (Double.eq (E.postRotation v.xform) d = true → manualDeskewAngleSetExternally E v d = v) ∧
      (Double.eq (E.postRotation v.xform) d = false →
        (manualDeskewAngleSetExternally E v d).xform = E.setPostRotation v.xform d ∧
        E.postRotation (manualDeskewAngleSetExternally E v d).xform = d ∧
        (manualDeskewAngleSetExternally E v d).updates
          = v.updates ++ [ViewUpdate.updateTransform
              (E.presentation (E.setPostRotation v.xform d))] ∧
        (manualDeskewAngleSetExternally E v d).emitted = v.emitted ∧
        (manualDeskewAngleSetExternally E v d).arcSquare = v.arcSquare) ∧
      (d ≠ Double.nan →
        manualDeskewAngleSetExternally E (manualDeskewAngleSetExternally E v d) d
          = manualDeskewAngleSetExternally E v d) ∧
      (d = Double.nan →
        (manualDeskewAngleSetExternally E (manualDeskewAngleSetExternally E v d) d).updates
          = v.updates
            ++ [ViewUpdate.updateTransform (E.presentation (E.setPostRotation v.xform d)),
                ViewUpdate.updateTransform (E.presentation
                  (E.setPostRotation (E.setPostRotation v.xform d) d))]) := by
  refine ⟨?_, ?_, ?_, ?_⟩
  · intro h
    simp [manualDeskewAngleSetExternally, h]
  · intro h
    simp [manualDeskewAngleSetExternally, h, hset]
  · intro hd
    cases hb : Double.eq (E.postRotation v.xform) d with
    | true => simp [manualDeskewAngleSetExternally, hb]
    | false =>
      have h2 : E.postRotation (manualDeskewAngleSetExternally E v d).xform = d := by
        simp [manualDeskewAngleSetExternally, hb, hset]
      have h3 : Double.eq d d = true := by
        cases d with
        | finite x => simp [Double.eq]
        | nan => exact absurd rfl hd
      generalize manualDeskewAngleSetExternally E v d = w at h2 ⊢
      simp [manualDeskewAngleSetExternally, h2, h3]
  · rintro rfl
    have h1 : ∀ a : Double K, Double.eq a Double.nan = false := by
      intro a
      cases a <;> rfl
    simp [manualDeskewAngleSetExternally, h1]

/-- Witness of C12: a transformation that is its angle, set from 3 to 60 degrees
twice. -/
theorem manualDeskewAngleSetExternally_effect_witness :
    (Double.finite 60 : Double ℚ) ≠ Double.nan ∧
      manualDeskewAngleSetExternally (storedAngleEngine (Double ℚ) (Double.finite 1))
          (manualDeskewAngleSetExternally (storedAngleEngine (Double ℚ) (Double.finite 1))
            sampleDoubleView (Double.finite 60)) (Double.finite 60)
        = manualDeskewAngleSetExternally (storedAngleEngine (Double ℚ) (Double.finite 1))
            sampleDoubleView (Double.finite 60) :=
  ⟨by simp,
    (manualDeskewAngleSetExternally_effect (storedAngleEngine (Double ℚ) (Double.finite 1))
      sampleDoubleView (Double.finite 60) (fun _ _ => rfl)).2.2.1 (by simp)⟩

/-- Claim C13. For every prior state, wheel delta and handle position: after
`onWheelEvent` with exactly Ctrl or exactly Ctrl and Shift held and the
interaction not captured, and after `handleMoveRequest` with a positive arc
radius, the post-rotation lies between -45 and 45 degrees; `onWheelEvent`
with other modifiers, or with the interaction captured, leaves the view (and
so the post-rotation) and the event as they are.  The transformation is taken
to return as post-rotation what was set last. -/
theorem postRotation_within_max (E : DeskewEngine K X P)
    (hset : ∀ (x : X) (a : K), E.postRotation (E.setPostRotation x a) = a) :
    (∀ (v : ImageView K X P) (event : WheelEvent),
        (event.modifiers = KeyboardModifiers.ControlModifier ∨
          event.modifiers
            = KeyboardModifiers.ControlModifier.union KeyboardModifiers.ShiftModifier) →
        -45 ≤ E.postRotation (onWheelEvent E event false v).2.xform ∧
          E.postRotation (onWheelEvent E event false v).2.xform ≤ 45) ∧
      (∀ (v : ImageView K X P) (idx : Int) (pos : Vec2d K),
        0 < (1 / 2) * v.arcSquare.width →
        -45 ≤ E.postRotation (handleMoveRequest E idx pos v).xform ∧
          E.postRotation (handleMoveRequest E idx pos v).xform ≤ 45) ∧
      (∀ (v : ImageView K X P) (event : WheelEvent) (captured : Bool),
        (captured = true ∨
          (event.modifiers ≠ KeyboardModifiers.ControlModifier ∧
            event.modifiers
              ≠ KeyboardModifiers.ControlModifier.union KeyboardModifiers.ShiftModifier)) →
        onWheelEvent E event captured v = (event, v)) := by
  have h45 : (-45 : K) ≤ 45 := by norm_num
  refine ⟨?_, ?_, ?_⟩
  · intro v event hmod
    have hne : KeyboardModifiers.ControlModifier.union KeyboardModifiers.ShiftModifier
        ≠ KeyboardModifiers.ControlModifier := by decide
    rcases hmod with h | h
    · simp only [onWheelEvent, h, Bool.false_eq_true, if_false, if_true, m_maxRotationDeg]
      generalize E.postRotation v.xform - 1 / 10 * (event.delta : K) / 120 = t
      obtain ⟨hlo, hhi, _⟩ := qBound_facts (-45 : K) t 45 h45
      split_ifs with heq
      · simp only
        rw [← heq]
        exact ⟨hlo, hhi⟩
      · simp only [hset]
        exact ⟨hlo, hhi⟩
    · simp only [onWheelEvent, h, hne, Bool.false_eq_true, if_false, if_true, m_maxRotationDeg]
      generalize E.postRotation v.xform - 5 / 100 * (event.delta : K) / 120 = t
      obtain ⟨hlo, hhi, _⟩ := qBound_facts (-45 : K) t 45 h45
      split_ifs with heq
      · simp only
        rw [← heq]
        exact ⟨hlo, hhi⟩
      · simp only [hset]
        exact ⟨hlo, hhi⟩
  · intro v idx pos _
    simp only [handleMoveRequest, m_maxRotationDeg]
    generalize (if idx = 0 then
      -E.asin (qBound (-(1 / 2 * v.arcSquare.width)) (pos.y - v.arcSquare.center.y)
        (1 / 2 * v.arcSquare.width) / (1 / 2 * v.arcSquare.width))
      else E.asin (qBound (-(1 / 2 * v.arcSquare.width)) (pos.y - v.arcSquare.center.y)
        (1 / 2 * v.arcSquare.width) / (1 / 2 * v.arcSquare.width))) * E.RAD2DEG = t
    obtain ⟨hlo, hhi, _⟩ := qBound_facts (-45 : K) t 45 h45
    split_ifs with heq
    · rw [← heq]
      exact ⟨hlo, hhi⟩
    · simp only [hset]
      exact ⟨hlo, hhi⟩
  · intro v event captured h
    rcases h with h | ⟨h1, h2⟩
    · simp [onWheelEvent, h]
    · cases captured <;> simp [onWheelEvent, h1, h2]

/-- Witness of C13: one notch of the wheel with Ctrl held, from 60 degrees. -/
theorem postRotation_within_max_witness :
    -45 ≤ (angleEngine (fun x : ℚ => x) (fun x => x) (fun x => x) 1 1).postRotation
        (onWheelEvent (angleEngine (fun x : ℚ => x) (fun x => x) (fun x => x) 1 1)
          ⟨KeyboardModifiers.ControlModifier, 120, false⟩ false
          ⟨60, ⟨0, 0, 200, 200⟩, [], []⟩).2.xform ∧
      (angleEngine (fun x : ℚ => x) (fun x => x) (fun x => x) 1 1).postRotation
        (onWheelEvent (angleEngine (fun x : ℚ => x) (fun x => x) (fun x => x) 1 1)
          ⟨KeyboardModifiers.ControlModifier, 120, false⟩ false
          ⟨60, ⟨0, 0, 200, 200⟩, [], []⟩).2.xform ≤ 45 :=
  (postRotation_within_max (angleEngine (fun x : ℚ => x) (fun x => x) (fun x => x) 1 1)
    (fun _ _ => rfl)).1 ⟨60, ⟨0, 0, 200, 200⟩, [], []⟩
    ⟨KeyboardModifiers.ControlModifier, 120, false⟩ (Or.inl rfl)

/-- The method `handleMoveRequest` in terms of the angle it computes: nothing
when that angle is the post-rotation already. -/
theorem handleMoveRequest_eq (E : DeskewEngine K X P) (idx : Int) (pos : Vec2d K)
    (v : ImageView K X P) :
    handleMoveRequest E idx pos v =
      if requestedAngle E idx pos v = E.postRotation v.xform then v
      else
        { v with
          xform := E.setPostRotation v.xform (requestedAngle E idx pos v)
          updates := v.updates ++ [ViewUpdate.updateTransformPreservingScale
            (E.presentation (E.setPostRotation v.xform (requestedAngle E idx pos v)))] } := by
  rfl

/-- The arcsine of the sine of an angle of at most 45 degrees either way, turned
back into degrees, is the angle. -/
theorem arcsin_sin_degrees (a : ℝ) (h1 : -45 ≤ a) (h2 : a ≤ 45) :
    Real.arcsin (Real.sin (a * (Real.pi / 180))) * (180 / Real.pi) = a := by
  have hpi := Real.pi_pos
  rw [Real.arcsin_sin (by nlinarith) (by nlinarith)]
  field_simp

/-- Claim C14. The rotation handles round-trip over the reals: with the arcsine
and `RAD2DEG = 180 / pi` of the reals, a post-rotation `a` between -45 and 45
degrees whose `postRotationSin` and `postRotationCos` are the sine and cosine
of `a` degrees, an arc square of positive radius and `idx` 0 or 1,
`handleMoveRequest(idx, handlePosition(idx))` computes the angle `a` again and
leaves the view as it is.  The two handles are opposite points of the circle
of the arc radius around the centre of the arc square, which is why the left
handle takes the negated arcsine. -/
theorem handle_round_trip {X P : Type} (E : DeskewEngine ℝ X P) (v : ImageView ℝ X P)
    (idx : Int) (hidx : idx = 0 ∨ idx = 1)
    (hasin : E.asin = Real.arcsin) (hrad : E.RAD2DEG = 180 / Real.pi)
    (hsin : E.postRotationSin v.xform = Real.sin (E.postRotation v.xform * (Real.pi / 180)))
    (hcos : E.postRotationCos v.xform = Real.cos (E.postRotation v.xform * (Real.pi / 180)))
    (ha : -45 ≤ E.postRotation v.xform ∧ E.postRotation v.xform ≤ 45)
    (hr : 0 < (1 / 2) * v.arcSquare.width) :
    requestedAngle E idx (handlePosition E idx v) v = E.postRotation v.xform ∧
      handleMoveRequest E idx (handlePosition E idx v) v = v ∧
      (getRotationHandles E v v.arcSquare).1.sub v.arcSquare.center
        = ((getRotationHandles E v v.arcSquare).2.sub v.arcSquare.center).scale (-1) ∧
      ((getRotationHandles E v v.arcSquare).1.sub v.arcSquare.center).squaredNorm
        = ((1 / 2) * v.arcSquare.width) ^ 2 ∧
      ((getRotationHandles E v v.arcSquare).2.sub v.arcSquare.center).squaredNorm
        = ((1 / 2) * v.arcSquare.width) ^ 2 := by
  obtain ⟨ha1, ha2⟩ := ha
  have hdeg := arcsin_sin_degrees (E.postRotation v.xform) ha1 ha2
  have hs1 := Real.sin_le_one (E.postRotation v.xform * (Real.pi / 180))
  have hs2 := Real.neg_one_le_sin (E.postRotation v.xform * (Real.pi / 180))
  have hsc := Real.sin_sq_add_cos_sq (E.postRotation v.xform * (Real.pi / 180))
  generalize hθ : Real.sin (E.postRotation v.xform * (Real.pi / 180)) = sn at *
  generalize Real.cos (E.postRotation v.xform * (Real.pi / 180)) = cs at *
  generalize hrd : (1 / 2) * v.arcSquare.width = r at *
  have hrne : r ≠ 0 := ne_of_gt hr
  have hangle : requestedAngle E idx (handlePosition E idx v) v = E.postRotation v.xform := by
    have hb := (qBound_facts (-45 : ℝ) (E.postRotation v.xform) 45 (by norm_num)).2.2 ha1 ha2
    rcases hidx with rfl | rfl
    · have hq := (qBound_facts (-r) (-sn * r) r (by linarith)).2.2 (by nlinarith) (by nlinarith)
      have hy : (handlePosition E 0 v).y - v.arcSquare.center.y = -sn * r := by
        simp only [handlePosition, getRotationHandles, Vec2d.add, hsin, hrd, if_true]
        ring
      simp only [requestedAngle, hrd, hy, hq, hasin, hrad, m_maxRotationDeg, if_true]
      rw [mul_div_assoc, div_self hrne, mul_one, Real.arcsin_neg, neg_neg, hdeg]
      exact hb
    · have hq := (qBound_facts (-r) (sn * r) r (by linarith)).2.2 (by nlinarith) (by nlinarith)
      have h10 : ¬ ((1 : Int) = 0) := by decide
      have hy : (handlePosition E 1 v).y - v.arcSquare.center.y = sn * r := by
        simp only [handlePosition, getRotationHandles, Vec2d.add, hsin, hrd, h10, if_false]
        ring
      simp only [requestedAngle, hrd, hy, hq, hasin, hrad, m_maxRotationDeg, h10, if_false]
      rw [mul_div_assoc, div_self hrne, mul_one, hdeg]
      exact hb
  refine ⟨hangle, ?_, ?_, ?_, ?_⟩
  · rw [handleMoveRequest_eq, if_pos hangle]
  · simp [getRotationHandles, Vec2d.add, Vec2d.sub, Vec2d.scale]
  · simp only [getRotationHandles, Vec2d.add, Vec2d.sub, Vec2d.squaredNorm, hsin, hcos, hrd]
    linear_combination r ^ 2 * hsc
  · simp only [getRotationHandles, Vec2d.add, Vec2d.sub, Vec2d.squaredNorm, hsin, hcos, hrd]
    linear_combination r ^ 2 * hsc

/-- Witness of C14: the left handle of a view turned by 30 degrees, over the
reals with their sine, cosine and arcsine. -/
theorem handle_round_trip_witness :
    ((-45 : ℝ) ≤ 30 ∧ (30 : ℝ) ≤ 45) ∧
      handleMoveRequest
          (angleEngine Real.sin Real.cos Real.arcsin (Real.pi / 180) (180 / Real.pi)) 0
          (handlePosition
            (angleEngine Real.sin Real.cos Real.arcsin (Real.pi / 180) (180 / Real.pi)) 0
            ⟨30, ⟨0, 0, 200, 200⟩, [], []⟩)
          ⟨30, ⟨0, 0, 200, 200⟩, [], []⟩
        = ⟨30, ⟨0, 0, 200, 200⟩, [], []⟩ :=
  ⟨by norm_num,
    (handle_round_trip
      (angleEngine Real.sin Real.cos Real.arcsin (Real.pi / 180) (180 / Real.pi))
      ⟨30, ⟨0, 0, 200, 200⟩, [], []⟩ 0 (Or.inl rfl) rfl rfl rfl rfl
      (by norm_num [angleEngine]) (by norm_num)).2.1⟩

end DeskewTheorems

section UnitsProviderTheorems

open UnitsProvider

variable {U L : Type}

/-- The provider after the listeners of a list have been registered one after
the other with `addListener`: they stand behind the earlier registrations, in
the order in which they were added, and nothing else has changed. -/
theorem foldl_addListener (ls : List L) :
    ∀ p : UnitsProvider U L,
      ls.foldl addListener p = { p with m_unitsListeners := p.m_unitsListeners ++ ls } := by
  induction ls with
  | nil => intro p; simp
  | cons a rest ih =>
    intro p
    rw [List.foldl_cons, ih]
    simp [addListener]

variable [DecidableEq L]

/-- Claim C15. The method `addListener(l)` registers `l` behind the registrations
made before, once for each call.  The method `setUnits(u)` stores `u` and then
calls `onUnitsChanged(u)` once per registration on every registered listener,
in registration order, leaving the registrations as they are.  After
`removeListener(l)` no registration of `l` is left, however often `l` was
added, so that a later `setUnits`, also after other listeners were added,
does not notify `l`; the other listeners keep their registrations, as many as
before and in their order.  Here `ls` are listeners registered one after the
other on the provider `p`, and `ms` listeners registered after the removal. -/
theorem unitsProvider_notifies_registered (p : UnitsProvider U L) (ls ms : List L) (u : U)
    (l : L) :
    (addListener p l).m_unitsListeners = p.m_unitsListeners ++ [l] ∧
      (addListener (addListener p l) l).m_unitsListeners = p.m_unitsListeners ++ [l, l] ∧
      (ls.foldl addListener p).m_unitsListeners = p.m_unitsListeners ++ ls ∧
      (setUnits (ls.foldl addListener p) u).m_units = u ∧
      (setUnits (ls.foldl addListener p) u).notified
        = p.notified ++ (p.m_unitsListeners ++ ls).map (fun listener => (listener, u)) ∧
      (∀ m : L,
        (((setUnits (ls.foldl addListener p) u).notified.drop p.notified.length).map
            Prod.fst).count m
          = p.m_unitsListeners.count m + ls.count m) ∧
      (setUnits (ls.foldl addListener p) u).m_unitsListeners = p.m_unitsListeners ++ ls ∧
      l ∉ (removeListener (ls.foldl addListener p) l).m_unitsListeners ∧
      (removeListener (ls.foldl addListener p) l).m_unitsListeners
        = (p.m_unitsListeners ++ ls).filter (fun m => m ≠ l) ∧
      (removeListener (addListener (addListener p l) l) l).m_unitsListeners
        = p.m_unitsListeners.filter (fun m => m ≠ l) ∧
      (l ∉ ms →
        (setUnits (ms.foldl addListener (removeListener (ls.foldl addListener p) l)) u).notified
          = p.notified
            ++ ((p.m_unitsListeners ++ ls).filter (fun m => m ≠ l) ++ ms).map
              (fun listener => (listener, u)) ∧
        ∀ e ∈ (setUnits (ms.foldl addListener
            (removeListener (ls.foldl addListener p) l)) u).notified.drop p.notified.length,
          e.1 ≠ l) ∧
      (∀ m : L, m ≠ l →
        (removeListener (ls.foldl addListener p) l).m_unitsListeners.count m
          = p.m_unitsListeners.count m + ls.count m) ∧
      (removeListener (ls.foldl addListener p) l).m_unitsListeners.Sublist
        (p.m_unitsListeners ++ ls) ∧
      (removeListener p l).m_units = p.m_units ∧
      (removeListener p l).notified = p.notified ∧
      (addListener p l).m_units = p.m_units ∧
      (addListener p l).notified = p.notified := by
  have hset : (setUnits (ls.foldl addListener p) u).notified
      = p.notified ++ (p.m_unitsListeners ++ ls).map (fun listener => (listener, u)) := by
    rw [foldl_addListener]
    rfl
  have hrem : (removeListener (ls.foldl addListener p) l).m_unitsListeners
      = (p.m_unitsListeners ++ ls).filter (fun m => m ≠ l) := by
    rw [foldl_addListener]
    rfl
  refine ⟨rfl, by simp [addListener], by rw [foldl_addListener], by rw [foldl_addListener]; rfl,
    hset, ?_, by rw [foldl_addListener]; rfl, ?_, hrem, ?_, ?_, ?_, ?_, rfl, rfl, rfl, rfl⟩
  · intro m
    rw [hset, List.drop_left, List.map_map]
    have : (Prod.fst ∘ fun listener : L => (listener, u)) = id := rfl
    rw [this, List.map_id, List.count_append]
  · rw [hrem]
    simp
  · simp [removeListener, addListener, List.filter_append]
  · intro hms
    have hnot : (setUnits (ms.foldl addListener
        (removeListener (ls.foldl addListener p) l)) u).notified
        = p.notified
          ++ ((p.m_unitsListeners ++ ls).filter (fun m => m ≠ l) ++ ms).map
            (fun listener => (listener, u)) := by
      rw [foldl_addListener ms, foldl_addListener ls]
      rfl
    refine ⟨hnot, ?_⟩
    intro e he
    rw [hnot, List.drop_left] at he
    simp only [List.mem_map, List.mem_append, List.mem_filter] at he
    obtain ⟨m, hm, rfl⟩ := he
    rcases hm with ⟨_, hm⟩ | hm
    · simpa using hm
    · intro h
      exact hms (h ▸ hm)
  · intro m hm
    rw [hrem, List.count_filter (by simpa using hm), List.count_append]
  · rw [hrem]
    exact List.filter_sublist _

end UnitsProviderTheorems

end Scantailor
